import Mathlib

/-!
# tools/gatt-service.c (BlueZ 5.50, Wi-Fi provisioning build)

A shallow embedding of the GATT attribute server of `tools/gatt-service.c`,
in the build where `DUEROS` is not defined; the forwarding worker of the
`DUEROS` build and `parse_config` of `src/main.c` have sections of their own.

Conventions of the embedding.

* A `struct characteristic *` / `struct descriptor *` handed to a handler as
  `user_data` becomes a value that the handler takes and returns.
* Everything outside the two structs that the program reads or writes (the
  calls that put a signal or the completion of a property Set on the bus, the
  global credential buffers, the commands given to `popen`, the configuration
  file, the interfaces registered on the connection, the static counters)
  lives in one record, `World`, passed explicitly.
* The node paths built by `g_strdup_printf` are logged in `World.paths`, so
  that a path can be followed even when its registration fails.
* `printf`/`perror` output is not part of the model.
* A `char[]` buffer is modelled by the C string it holds.  For the two global
  credential buffers the model records the text that `strcpy` copies, however
  long, and does not reproduce what the bytes written past the end overwrite;
  writing past the end of a stack array (`cmdline`, `buff`) is a fault.
* A function whose claims are about the order of its effects (`chr_write`,
  `desc_write`, `desc_set_value`) is given as the list of its statements, so
  that the states it goes through can be named.
* libdbus, GLib and gdbus are external libraries: the few entry points the
  program calls are modelled by their documented behaviour, and the memory
  behind a byte array in a message by the wire format of the D-Bus
  specification.
-/

namespace GattService

/-! ## D-Bus values and iterators (libdbus) -/

/-- An octet (`uint8_t`). -/
abbrev Byte := Fin 256

/-- The argument of a D-Bus message.  A `dictEntry` is an entry of an `a{sv}`
dictionary: its key is a string and `value` is the content of its variant. -/
inductive DBusValue where
  | byte (b : Byte)
  | boolean (b : Bool)
  | int32 (n : Int)
  | string (s : String)
  | objectPath (s : String)
  | variant (v : DBusValue)
  | array (items : List DBusValue)
  | dictEntry (key : String) (value : DBusValue)

def DBUS_TYPE_INVALID : Nat := 0
def DBUS_TYPE_BYTE : Nat := 121
def DBUS_TYPE_BOOLEAN : Nat := 98
def DBUS_TYPE_INT32 : Nat := 105
def DBUS_TYPE_STRING : Nat := 115
def DBUS_TYPE_OBJECT_PATH : Nat := 111
def DBUS_TYPE_VARIANT : Nat := 118
def DBUS_TYPE_ARRAY : Nat := 97
def DBUS_TYPE_DICT_ENTRY : Nat := 101

def EINVAL : Int := 22

def DBUS_ERROR_INVALID_ARGS : String := "org.freedesktop.DBus.Error.InvalidArgs"
def DBUS_ERROR_NO_MEMORY : String := "org.freedesktop.DBus.Error.NoMemory"
def DBUS_ERROR_NOT_SUPPORTED : String := "org.freedesktop.DBus.Error.NotSupported"

/-- Modelled from the spec: the macro `ERROR_INTERFACE` comes from the header
`src/error.h`, which is not among the sources; it prefixes the name of the
invalid-argument error of a property Set. -/
def ERROR_INTERFACE : String := "org.bluez.Error"

def GATT_MGR_IFACE : String := "org.bluez.GattManager1"
def GATT_SERVICE_IFACE : String := "org.bluez.GattService1"
def GATT_CHR_IFACE : String := "org.bluez.GattCharacteristic1"
def GATT_DESCRIPTOR_IFACE : String := "org.bluez.GattDescriptor1"

def WIFI_SERVICES_UUID : String := "1B7E8251-2877-41C3-B46E-CF057C562023"
def SECURITY_UUID : String := "CAC2ABA4-EDBB-4C4A-BBAF-0A84A5CD93A1"
def SSID_UUID : String := "ACA0EF7C-EEAA-48AD-9508-19A6CEF6B356"
def PASSWORD_UUID : String := "40B7DE33-93E4-4C8B-A876-D833B415A6CE"
def CONFIG_NOTIFY_UUID : String := "8AC32D3f-5CB9-4D44-BEC2-EE689169F626"
def CONFIG_UUID : String := "00002902-0000-1000-8000-00805f9b34fb"

/-- The type code of a value (`dbus_message_iter_get_arg_type` on an iterator
that points at it). -/
def DBusValue.argType : DBusValue → Nat
  | .byte _ => DBUS_TYPE_BYTE
  | .boolean _ => DBUS_TYPE_BOOLEAN
  | .int32 _ => DBUS_TYPE_INT32
  | .string _ => DBUS_TYPE_STRING
  | .objectPath _ => DBUS_TYPE_OBJECT_PATH
  | .variant _ => DBUS_TYPE_VARIANT
  | .array _ => DBUS_TYPE_ARRAY
  | .dictEntry _ _ => DBUS_TYPE_DICT_ENTRY

/-- A message iterator: the values from the current position to the end of
the message or container. -/
abbrev DBusMessageIter := List DBusValue

/-- The arguments of a method call. -/
abbrev DBusMessage := List DBusValue

/-- Positions `iter` at the first argument; FALSE when the message has no
arguments. -/
def dbus_message_iter_init (msg : DBusMessage) : Bool × DBusMessageIter :=
  (!msg.isEmpty, msg)

def dbus_message_iter_get_arg_type : DBusMessageIter → Nat
  | [] => DBUS_TYPE_INVALID
  | v :: _ => v.argType

def dbus_message_iter_next : DBusMessageIter → DBusMessageIter
  | [] => []
  | _ :: rest => rest

/-- The iterator over the content of the container at the current position. -/
def dbus_message_iter_recurse : DBusMessageIter → DBusMessageIter
  | .array items :: _ => items
  | .variant v :: _ => [v]
  | .dictEntry key value :: _ => [.string key, .variant value]
  | _ => []

/-- The string read by `dbus_message_iter_get_basic` at a string or object
path. -/
def dbus_message_iter_get_basic : DBusMessageIter → String
  | .string s :: _ => s
  | .objectPath s :: _ => s
  | _ => ""

/-- Four octets, least significant first: a 32-bit value in the body of a
little-endian message. -/
def marshal32 (n : Int) : List Byte :=
  let u := (n % 4294967296).toNat
  [Fin.ofNat u, Fin.ofNat (u / 256), Fin.ofNat (u / 65536), Fin.ofNat (u / 16777216)]

/-- The marshalled octets of the fixed-width values of an array. -/
def marshalFixed : List DBusValue → List Byte
  | [] => []
  | .byte b :: rest => b :: marshalFixed rest
  | .boolean b :: rest => marshal32 (if b then 1 else 0) ++ marshalFixed rest
  | .int32 n :: rest => marshal32 n ++ marshalFixed rest
  | _ :: rest => marshalFixed rest

/-- The call `dbus_message_iter_get_fixed_array(&array, value, len)`, `array`
being the iterator inside an array.  An empty array gives NULL and 0; elements
of fixed width give the address of their marshalled block and their number.
For any other element type the call is outside what libdbus documents, and
what the two variables hold afterwards is not specified: a library built with
argument checks returns before it writes and leaves them as the caller had
them, a library built without computes an address and a count from the
marshalled elements.  The parameters `value` and `len` stand for what the
variables hold after the call in that case, whichever it is; no statement
constrains them. -/
def dbus_message_iter_get_fixed_array (array : DBusMessageIter)
    (value : Option (List Byte)) (len : Int) : Option (List Byte) × Int :=
  match array with
  | [] => (none, 0)
  | .byte _ :: _ => (some (marshalFixed array), array.length)
  | .boolean _ :: _ => (some (marshalFixed array), array.length)
  | .int32 _ :: _ => (some (marshalFixed array), array.length)
  | _ => (value, len)

/-- The reply a method handler returns. -/
inductive DBusReply where
  | method_return (args : List DBusValue)
  | error (name : String) (message : String)

def g_dbus_create_error (name : String) (message : String) : Option DBusReply :=
  some (.error name message)

/-! ## Process state -/

/-- A call of gdbus that puts something on the bus: a property-changed
notification, or the completion of the pending property Set `id`. -/
inductive BusCall where
  | property_changed (path : String) (interface : String) (name : String)
  | pending_success (id : Nat)
  | pending_error (id : Nat) (name : String) (message : String)
deriving DecidableEq, Repr

structure characteristic where
  service : String
  uuid : String
  path : String
  value : Option (List Byte)
  vlen : Int
  props : List String
deriving DecidableEq, Repr

/-- The descriptor struct; `chr` is the path of the characteristic the source
points to (the program only ever reads the path through that pointer). -/
structure descriptor where
  chr : String
  uuid : String
  path : String
  value : Option (List Byte)
  vlen : Int
  props : List String
deriving DecidableEq, Repr

/-- The `user_data` of a registered interface. -/
inductive UserData where
  | service (uuid : String)
  | chr (c : characteristic)
  | desc (d : descriptor)
deriving DecidableEq, Repr

/-- A proxy of an interface of a remote object (`GDBusProxy`). -/
structure GDBusProxy where
  path : String
  interface : String
deriving DecidableEq, Repr

/-- A method call sent through a proxy. -/
structure MethodCall where
  proxy : GDBusProxy
  method : String
  args : List DBusValue

/-- A way the process leaves defined behaviour. -/
inductive Fault where
  /-- `pclose(NULL)` in `execute`, after `popen` gave no stream. -/
  | null_stream
  /-- `strcpy` from the NULL pointer that an empty array yields. -/
  | null_source
  /-- `strcpy` found no NUL in the modelled memory. -/
  | unterminated
  /-- `chr_write` through `dueros_chr` while that pointer is NULL. -/
  | null_characteristic
  /-- `sprintf` or `strcat` past the end of a stack array of 256 bytes
  (`cmdline`, `buff`). -/
  | buffer_overrun
deriving DecidableEq, Repr

/-- The state outside the attribute structs.

* `bus_calls`: the calls of `g_dbus_emit_property_changed`,
  `g_dbus_pending_property_success` and `g_dbus_pending_property_error`, in
  the order in which they were made, oldest first.
* `wifi_ssid`, `wifi_password`: the C strings held by the two global buffers.
* `commands`: the command lines run through `popen` by `execute`, oldest
  first; `popen_out k` is what the `k`-th of them prints, `none` when `popen`
  gives no stream.
* `fopen_ok`: whether the configuration file can be opened for writing;
  `conf`: what has been written to it.
* `nomem`: whether libdbus fails to allocate a reply.
* `registered`: the interfaces registered on the connection, each with its
  path and its user data;
  `register_ok k` is the result of the `k`-th call of
  `g_dbus_register_interface`, `register_calls` counts them.
* `chr_id`, `service_id`: the static counters of `register_characteristic`
  and `register_service`; `services`: the global list of service paths.
* `paths`: the node paths built by `g_strdup_printf`, oldest first, whether
  or not the registration that follows succeeds.
* `method_call_ok`: whether `g_dbus_proxy_method_call` can send a call;
  `method_calls`: the method calls sent to a proxy and not yet answered,
  oldest first. -/
structure World where
  bus_calls : List BusCall
  wifi_ssid : String
  wifi_password : String
  commands : List String
  popen_out : Nat → Option String
  fopen_ok : Bool
  conf : Option String
  nomem : Bool
  registered : List (String × String × UserData)
  register_ok : Nat → Bool
  register_calls : Nat
  chr_id : Int
  service_id : Int
  services : List String
  paths : List String
  method_call_ok : Bool
  method_calls : List MethodCall

def chr_props : List String := ["read", "write", "notify"]
def desc_props : List String := ["read", "write"]

/-! ## GLib and gdbus entry points -/

/-- The GLib call `g_memdup(mem, byte_size)`; `byte_size` is a `guint`. -/
def g_memdup (mem : Option (List Byte)) (byte_size : Int) : Option (List Byte) :=
  match mem with
  | none => none
  | some bytes =>
    if byte_size % 4294967296 = 0 then none
    else some (bytes.take (byte_size % 4294967296).toNat)

def g_dbus_emit_property_changed (path : String) (interface : String) (name : String)
    (w : World) : World :=
  { w with bus_calls := w.bus_calls ++ [.property_changed path interface name] }

def g_dbus_pending_property_success (id : Nat) (w : World) : World :=
  { w with bus_calls := w.bus_calls ++ [.pending_success id] }

def g_dbus_pending_property_error (id : Nat) (name : String) (message : String)
    (w : World) : World :=
  { w with bus_calls := w.bus_calls ++ [.pending_error id name message] }

def dbus_message_new_method_return (w : World) : Option DBusReply :=
  if w.nomem then none else some (.method_return [])

/-- Opens an array of bytes in the reply and appends `n` octets of `value`
(`dbus_message_iter_append_fixed_array`). -/
def append_byte_array (value : Option (List Byte)) (n : Int) : DBusValue :=
  .array (((value.getD []).take n.toNat).map DBusValue.byte)

/-! ## Straight-line bodies

Where the order of the effects of a function matters, its body is given as the
list of its statements, each a step on the state, and the function is the run
of that list. -/

/-- The state after the statements `stmts`, run in program order from `s`. -/
def run_stmts {σ : Type} (stmts : List (σ → σ)) (s : σ) : σ :=
  stmts.foldl (fun s stmt => stmt s) s

/-- The states the statements go through from `s`: the state after each
statement, in program order. -/
def run_states {σ : Type} : List (σ → σ) → σ → List σ
  | [], _ => []
  | stmt :: rest, s => stmt s :: run_states rest (stmt s)

/-! ## Descriptor and characteristic accessors -/

def desc_read (desc : descriptor) : DBusValue :=
  if desc.vlen ≠ 0 ∧ desc.value.isSome then
    append_byte_array desc.value desc.vlen
  else
    .array []

def desc_get_value (desc : descriptor) : DBusValue :=
  desc_read desc

/-- The statements of `desc_write` that change the descriptor or the state,
in program order (`g_free` changes nothing the model holds). -/
def desc_write_stmts (value : Option (List Byte)) (len : Int) :
    List (descriptor × World → descriptor × World) :=
  [fun s => ({ s.1 with value := g_memdup value len }, s.2),
   fun s => ({ s.1 with vlen := len }, s.2),
   fun s => (s.1, g_dbus_emit_property_changed s.1.path GATT_DESCRIPTOR_IFACE "Value" s.2)]

def desc_write (desc : descriptor) (value : Option (List Byte)) (len : Int) (w : World) :
    descriptor × World :=
  run_stmts (desc_write_stmts value len) (desc, w)

/-- The return code with the out-parameters `value` and `len`, which come in
holding what the caller's (uninitialised) variables held. -/
def parse_value (iter : DBusMessageIter) (value : Option (List Byte)) (len : Int) :
    Int × Option (List Byte) × Int :=
  if dbus_message_iter_get_arg_type iter ≠ DBUS_TYPE_ARRAY then
    (-EINVAL, value, len)
  else
    let array := dbus_message_iter_recurse iter
    let (value, len) := dbus_message_iter_get_fixed_array array value len
    (0, value, len)

/-- The locals `value` and `len` of a handler are not initialised: `value0`
and `len0` are what they happen to hold. -/
def desc_set_value_stmts (iter : DBusMessageIter) (id : Nat)
    (value0 : Option (List Byte)) (len0 : Int) :
    List (descriptor × World → descriptor × World) :=
  let (r, value, len) := parse_value iter value0 len0
  if r ≠ 0 then
    [fun s => (s.1, g_dbus_pending_property_error id (ERROR_INTERFACE ++ ".InvalidArguments")
      "Invalid arguments in method call" s.2)]
  else
    desc_write_stmts value len ++
      [fun s => (s.1, g_dbus_pending_property_success id s.2)]

/-- The statements of `desc_set_value` after the parse, those of the call of
`desc_write` included, run on the descriptor and the state. -/
def desc_set_value (iter : DBusMessageIter) (id : Nat) (desc : descriptor)
    (value0 : Option (List Byte)) (len0 : Int) (w : World) : descriptor × World :=
  run_stmts (desc_set_value_stmts iter id value0 len0) (desc, w)

def chr_read (chr : characteristic) : DBusValue :=
  append_byte_array chr.value chr.vlen

def chr_get_value (chr : characteristic) : DBusValue :=
  chr_read chr

/-- The statements of `chr_write` that change the characteristic or the state,
in program order (`g_free` changes nothing the model holds). -/
def chr_write_stmts (value : Option (List Byte)) (len : Int) :
    List (characteristic × World → characteristic × World) :=
  [fun s => ({ s.1 with value := g_memdup value len }, s.2),
   fun s => ({ s.1 with vlen := len }, s.2),
   fun s => (s.1, g_dbus_emit_property_changed s.1.path GATT_CHR_IFACE "Value" s.2)]

def chr_write (chr : characteristic) (value : Option (List Byte)) (len : Int) (w : World) :
    characteristic × World :=
  run_stmts (chr_write_stmts value len) (chr, w)

def chr_set_value (iter : DBusMessageIter) (id : Nat) (chr : characteristic)
    (value0 : Option (List Byte)) (len0 : Int) (w : World) : characteristic × World :=
  let (r, value, len) := parse_value iter value0 len0
  if r = 0 then
    (chr, g_dbus_pending_property_error id (ERROR_INTERFACE ++ ".InvalidArguments")
      "Invalid arguments in method call" w)
  else
    let (chr, w) := chr_write chr value len w
    (chr, g_dbus_pending_property_success id w)

/-- The C library `tolower` in the C locale. -/
def tolower (c : Char) : Char :=
  if 65 ≤ c.toNat ∧ c.toNat ≤ 90 then Char.ofNat (c.toNat + 32) else c

def strcasecmp_chars : List Char → List Char → Int
  | [], [] => 0
  | [], b :: _ => - ((tolower b).toNat : Int)
  | a :: _, [] => ((tolower a).toNat : Int)
  | a :: as, b :: bs =>
    if tolower a = tolower b then strcasecmp_chars as bs
    else ((tolower a).toNat : Int) - ((tolower b).toNat : Int)

/-- The C library `strcasecmp`: 0 when the strings are equal up to the case of
their letters, else the difference of the first two characters that differ. -/
def strcasecmp (a : String) (b : String) : Int :=
  strcasecmp_chars a.data b.data

/-- The loop of `parse_options` over the dictionary iterator; `device` is the
out-parameter (`none` while nothing was stored). -/
def parse_options_loop : DBusMessageIter → Option String → Int × Option String
  | [], device => (0, device)
  | d :: rest, device =>
    if dbus_message_iter_get_arg_type (d :: rest) = DBUS_TYPE_DICT_ENTRY then
      let entry := dbus_message_iter_recurse (d :: rest)
      let key := dbus_message_iter_get_basic entry
      let entry := dbus_message_iter_next entry
      let value := dbus_message_iter_recurse entry
      let var := dbus_message_iter_get_arg_type value
      if strcasecmp key "device" = 0 then
        if var ≠ DBUS_TYPE_OBJECT_PATH then (-EINVAL, device)
        else parse_options_loop rest (some (dbus_message_iter_get_basic value))
      else parse_options_loop rest device
    else (0, device)

def parse_options (iter : DBusMessageIter) : Int × Option String :=
  if dbus_message_iter_get_arg_type iter ≠ DBUS_TYPE_ARRAY then
    (-EINVAL, none)
  else
    parse_options_loop (dbus_message_iter_recurse iter) none

/-! ## External commands and the Wi-Fi configuration -/

def CMD_ADV : String :=
  "hcitool -i hci0 cmd 0x08 0x0008 15 02 01 06 11 07 23 20 56 7c 05 cf 6e b4 c3 41 77 28 51 82 7e 1b"

def CMD_EN : String := "hcitool -i hci0 cmd 0x08 0x000a 1"

/-- The format `WIFI_CONFIG_FORMAT` with its two `%s` filled in. -/
def WIFI_CONFIG_FORMAT (ssid : String) (psk : String) : String :=
  "ctrl_interface=/var/run/wpa_supplicant\nap_scan=1\n\nnetwork=\x7b\nssid=\"" ++ ssid ++
    "\"\npsk=\"" ++ psk ++ "\"\npriority=1\n\x7d\n"

/-- What `snprintf(buf, size, ...)` leaves in `buf`, `s` being the formatted
text: at most `size - 1` characters. -/
def snprintf (size : Nat) (s : String) : String :=
  String.mk (s.data.take (size - 1))

/-- Runs `cmdline` through `popen` and returns what it printed (`recv_buff`).
The output is appended to `recv_buff` with `strcat`, without a bound:
`recv_size` is the size of the array the caller passes, and an output that
does not fit it with its terminator is written past its end.  Without a stream
the function reaches `pclose(NULL)`. -/
def execute (cmdline : String) (recv_size : Nat) (w : World) :
    Except Fault (String × World) :=
  match w.popen_out w.commands.length with
  | none => .error .null_stream
  | some out =>
    if recv_size ≤ out.length then .error .buffer_overrun
    else .ok (out, { w with commands := w.commands ++ [cmdline] })

/-- What `sprintf(buf, ...)` leaves in an array `buf` of `size` bytes, `s`
being the formatted text.  `sprintf` has no bound: a text that does not fit
with its terminator is written past the end of the array. -/
def sprintf (size : Nat) (s : String) : Except Fault String :=
  if size ≤ s.length then .error .buffer_overrun else .ok s

def isspace (c : Char) : Bool :=
  c.toNat = 32 || (9 ≤ c.toNat && c.toNat ≤ 13)

def atoi_digits : List Char → Int → Int
  | [], acc => acc
  | c :: cs, acc =>
    if c.isDigit then atoi_digits cs (acc * 10 + (c.toNat - 48 : Nat)) else acc

/-- The C library `strtol(s, NULL, 10)` where `long` has 64 bits: white space
is skipped, a sign and the decimal digits that follow are read, and a value
outside the range of `long` is replaced by the nearest bound. -/
def strtol (s : String) : Int :=
  let n : Int :=
    match s.data.dropWhile isspace with
    | [] => 0
    | c :: cs =>
      if c = Char.ofNat 45 then - atoi_digits cs 0
      else if c = Char.ofNat 43 then atoi_digits cs 0
      else atoi_digits (c :: cs) 0
  if n < -9223372036854775808 then -9223372036854775808
  else if 9223372036854775807 < n then 9223372036854775807
  else n

/-- The C library `atoi` as glibc defines it, `(int) strtol(s, NULL, 10)`: the
conversion to `int` keeps the low 32 bits of the `long`.  (C leaves `atoi`
undefined when the value does not fit an `int`.) -/
def atoi (s : String) : Int :=
  (strtol s + 2147483648) % 4294967296 - 2147483648

/-- The test `!strncmp(buff, "OK", 2)`. -/
def starts_with_OK (buff : String) : Bool :=
  buff.data.take 2 = "OK".data

/-- The arrays `buff` and `cmdline` have 256 bytes each. -/
def wpa_cli_config_wifi (w : World) : Except Fault (Bool × World) := do
  -- 1. add network
  let (buff, w) ← execute "wpa_cli -iwlan0 add_network" 256 w
  let id := atoi buff
  if id < 0 then
    return (false, w)
  -- 2. setNetWorkSSID
  let cmdline ← sprintf 256 ("wpa_cli -iwlan0 set_network " ++ toString id ++ " ssid \\\"" ++
    w.wifi_ssid ++ "\\\"")
  let (buff, w) ← execute cmdline 256 w
  let execute_result := starts_with_OK buff
  if !execute_result then
    return (false, w)
  -- 3. setNetWorkPWD
  let cmdline ← sprintf 256 ("wpa_cli -iwlan0 set_network " ++ toString id ++ " psk \\\"" ++
    w.wifi_password ++ "\\\"")
  let (buff, w) ← execute cmdline 256 w
  let execute_result := starts_with_OK buff
  if !execute_result then
    return (false, w)
  -- 4. selectNetWork
  let cmdline ← sprintf 256 ("wpa_cli -iwlan0 select_network " ++ toString id)
  let (buff, w) ← execute cmdline 256 w
  let execute_result := starts_with_OK buff
  if !execute_result then
    return (false, w)
  return (true, w)

/-- The function returns `bool`: its `return -1` is `true`, its `return 0` is
`false`. -/
def save_wifi_config (name : String) (pwd : String) (w : World) : Bool × World :=
  if !w.fopen_ok then
    (true, w)
  else
    let body := snprintf 256 (WIFI_CONFIG_FORMAT name pwd)
    (false, { w with conf := some body })

/-- The C string that `strcpy(dst, value)` copies: the octets at `value` up to
the first NUL.  `value` points into the message body and is not terminated:
`after` is the memory that follows the array data there. -/
def strcpy (value : Option (List Byte)) (after : List Byte) : Except Fault String :=
  match value with
  | none => .error .null_source
  | some bytes =>
    let mem := bytes ++ after
    if mem.all (fun b => b ≠ 0) then .error .unterminated
    else .ok (String.mk ((mem.takeWhile (fun b => b ≠ 0)).map (fun b => Char.ofNat b.val)))

/-! ## Method handlers -/

def DBusReply.append (reply : DBusReply) (v : DBusValue) : DBusReply :=
  match reply with
  | .method_return args => .method_return (args ++ [v])
  | .error name message => .error name message

def chr_read_value (msg : DBusMessage) (chr : characteristic) (w : World) :
    Option DBusReply × characteristic × World :=
  let (ok, iter) := dbus_message_iter_init msg
  if !ok then
    (g_dbus_create_error DBUS_ERROR_INVALID_ARGS "Invalid arguments", chr, w)
  else if (parse_options iter).1 ≠ 0 then
    (g_dbus_create_error DBUS_ERROR_INVALID_ARGS "Invalid arguments", chr, w)
  else
    match dbus_message_new_method_return w with
    | none => (g_dbus_create_error DBUS_ERROR_NO_MEMORY "No Memory", chr, w)
    | some reply => (some (reply.append (chr_read chr)), chr, w)

/-- The handler of WriteValue on a characteristic.  `after` is the memory that
follows the array data in the message body; `value0` and `len0` are what the
uninitialised locals hold. -/
def chr_write_value (msg : DBusMessage) (after : List Byte) (chr : characteristic)
    (value0 : Option (List Byte)) (len0 : Int) (w : World) :
    Except Fault (Option DBusReply × characteristic × World) :=
  let (_, iter) := dbus_message_iter_init msg
  let (r, value, _) := parse_value iter value0 len0
  if r ≠ 0 then
    .ok (g_dbus_create_error DBUS_ERROR_INVALID_ARGS "Invalid arguments", chr, w)
  else if (parse_options iter).1 ≠ 0 then
    .ok (g_dbus_create_error DBUS_ERROR_INVALID_ARGS "Invalid arguments", chr, w)
  else do
    let w ←
      if SSID_UUID = chr.uuid then do
        let s ← strcpy value after
        pure { w with wifi_ssid := s }
      else pure w
    let w ←
      if PASSWORD_UUID = chr.uuid then do
        let s ← strcpy value after
        let w := { w with wifi_password := s }
        let (_, w) ← wpa_cli_config_wifi w
        let (_, w) := save_wifi_config w.wifi_ssid w.wifi_password w
        pure w
      else pure w
    return (dbus_message_new_method_return w, chr, w)

def chr_start_notify (_msg : DBusMessage) (chr : characteristic) (w : World) :
    Option DBusReply × characteristic × World :=
  (g_dbus_create_error DBUS_ERROR_NOT_SUPPORTED "Not Supported", chr, w)

def chr_stop_notify (_msg : DBusMessage) (chr : characteristic) (w : World) :
    Option DBusReply × characteristic × World :=
  (g_dbus_create_error DBUS_ERROR_NOT_SUPPORTED "Not Supported", chr, w)

def desc_read_value (msg : DBusMessage) (desc : descriptor) (w : World) :
    Option DBusReply × descriptor × World :=
  let (ok, iter) := dbus_message_iter_init msg
  if !ok then
    (g_dbus_create_error DBUS_ERROR_INVALID_ARGS "Invalid arguments", desc, w)
  else if (parse_options iter).1 ≠ 0 then
    (g_dbus_create_error DBUS_ERROR_INVALID_ARGS "Invalid arguments", desc, w)
  else
    match dbus_message_new_method_return w with
    | none => (g_dbus_create_error DBUS_ERROR_NO_MEMORY "No Memory", desc, w)
    | some reply => (some (reply.append (desc_read desc)), desc, w)

def desc_write_value (msg : DBusMessage) (desc : descriptor)
    (value0 : Option (List Byte)) (len0 : Int) (w : World) :
    Option DBusReply × descriptor × World :=
  let (ok, iter) := dbus_message_iter_init msg
  if !ok then
    (g_dbus_create_error DBUS_ERROR_INVALID_ARGS "Invalid arguments", desc, w)
  else
    let (r, value, len) := parse_value iter value0 len0
    if r ≠ 0 then
      (g_dbus_create_error DBUS_ERROR_INVALID_ARGS "Invalid arguments", desc, w)
    else if (parse_options iter).1 ≠ 0 then
      (g_dbus_create_error DBUS_ERROR_INVALID_ARGS "Invalid arguments", desc, w)
    else
      let (desc, w) := desc_write desc value len w
      (dbus_message_new_method_return w, desc, w)

/-! ## Advertising and the registration handshake -/

/-- The text `sprintf(temp, "%02x", c)` writes for a `char` holding the bit
pattern `c`.  The `char` is promoted to `int` and printed as `unsigned int`:
where `char` is signed, a pattern from 0x80 up is sign-extended. -/
def sprintf_02x (char_signed : Bool) (c : Nat) : String :=
  let u := if char_signed && decide (128 ≤ c) then c + 4294967040 else c
  let digits := Nat.toDigits 16 u
  String.mk (if digits.length < 2 then Char.ofNat 48 :: digits else digits)

/-- The array `addr` of `send_advertise` once both loops over the random
draws and the two masks are done; `rand i` is the value of the `i`-th call of
`rand()`, each element is the bit pattern of a `char`. -/
def send_advertise_addr (rand : Nat → Nat) : List Nat :=
  let addr := (List.range 6).map (fun i => rand i &&& 0xFF)
  let addr := addr.set 0 (addr.getD 0 0 &&& 0x3f)
  let addr := addr.set 0 (addr.getD 0 0 ||| 0x40)
  addr

/-- The buffer `CMD_RA` after the formatting loop. -/
def send_advertise_CMD_RA (char_signed : Bool) (addr : List Nat) : String :=
  addr.foldl (fun cmd c => cmd ++ sprintf_02x char_signed c ++ " ")
    "hcitool -i hci0 cmd 0x08 0x0005 "

/-- The array `buff` has 256 bytes; `CMD_RA` and `temp`, of 256 bytes too,
hold at most 86 and 8 characters. -/
def send_advertise (char_signed : Bool) (rand : Nat → Nat) (w : World) :
    Except Fault World := do
  let addr := send_advertise_addr rand
  let CMD_RA := send_advertise_CMD_RA char_signed addr
  -- LE Set Random Address Command
  let (_, w) ← execute CMD_RA 256 w
  -- LE Set Advertising Data Command
  let (_, w) ← execute CMD_ADV 256 w
  -- LE Set Advertise Enable Command
  let (_, w) ← execute CMD_EN 256 w
  return w

/-- The error name and message when the reply is an error message
(`dbus_set_error_from_message`). -/
def dbus_set_error_from_message : DBusReply → Option (String × String)
  | .method_return _ => none
  | .error name message => some (name, message)

def register_app_reply (reply : DBusReply) (char_signed : Bool) (rand : Nat → Nat)
    (w : World) : Except Fault World :=
  let derr := dbus_set_error_from_message reply
  -- both branches of the test of `derr` only print
  let w := if derr.isSome then w else w
  send_advertise char_signed rand w

/-! ## Building the tree -/

/-- The new value of an `int` after `++`.  At `INT_MAX` the model wraps to
`INT_MIN`, as the machine does; C leaves that overflow undefined. -/
def int_incr (n : Int) : Int :=
  if n = 2147483647 then -2147483648 else n + 1

/-- The gdbus call: the connection decides whether the interface is added. -/
def g_dbus_register_interface (path : String) (interface : String) (data : UserData)
    (w : World) : Bool × World :=
  let ok := w.register_ok w.register_calls
  let w := { w with register_calls := w.register_calls + 1 }
  if ok then (true, { w with registered := w.registered ++ [(path, interface, data)] })
  else (false, w)

def g_dbus_unregister_interface (path : String) (interface : String) (w : World) :
    Bool × World :=
  (w.registered.any (fun r => r.1 = path && r.2.1 = interface),
   { w with registered := w.registered.filter (fun r => !(r.1 = path && r.2.1 = interface)) })

def register_characteristic (chr_uuid : String) (value : Option (List Byte)) (vlen : Int)
    (props : List String) (desc_uuid : Option String) (desc_props : List String)
    (service_path : String) (w : World) : Bool × World :=
  let chr : characteristic :=
    { uuid := chr_uuid, value := g_memdup value vlen, vlen := vlen, props := props,
      service := service_path,
      path := service_path ++ "/characteristic" ++ toString w.chr_id }
  let w := { w with chr_id := int_incr w.chr_id, paths := w.paths ++ [chr.path] }
  let (ok, w) := g_dbus_register_interface chr.path GATT_CHR_IFACE (.chr chr) w
  if !ok then
    (false, w)
  else
    match desc_uuid with
    | none => (true, w)
    | some desc_uuid =>
      let desc : descriptor :=
        { uuid := desc_uuid, chr := chr.path, props := desc_props,
          path := chr.path ++ "/descriptor" ++ toString w.chr_id,
          value := none, vlen := 0 }
      let w := { w with chr_id := int_incr w.chr_id, paths := w.paths ++ [desc.path] }
      let (ok, w) := g_dbus_register_interface desc.path GATT_DESCRIPTOR_IFACE (.desc desc) w
      if !ok then
        let (_, w) := g_dbus_unregister_interface chr.path GATT_CHR_IFACE w
        (false, w)
      else
        (true, w)

def register_service (uuid : String) (w : World) : Option String × World :=
  let path := "/service" ++ toString w.service_id
  let w := { w with service_id := int_incr w.service_id, paths := w.paths ++ [path] }
  let (ok, w) := g_dbus_register_interface path GATT_SERVICE_IFACE (.service uuid) w
  if !ok then
    (none, w)
  else
    (some path, w)

def create_wifi_services (w : World) : World :=
  let level : List Byte := [20]
  let (service_path, w) := register_service WIFI_SERVICES_UUID w
  match service_path with
  | none => w
  | some service_path =>
    let (mSecure, w) := register_characteristic SECURITY_UUID (some level) 1
      chr_props none desc_props service_path w
    let (mSsid, w) := register_characteristic SSID_UUID (some level) 1
      chr_props none desc_props service_path w
    let (mPassword, w) := register_characteristic PASSWORD_UUID (some level) 1
      chr_props none desc_props service_path w
    let (mConfigCharNotify, w) := register_characteristic CONFIG_NOTIFY_UUID (some level) 1
      chr_props (some CONFIG_UUID) desc_props service_path w
    if !mSecure || !mSsid || !mPassword || !mConfigCharNotify then
      let (_, w) := g_dbus_unregister_interface service_path GATT_SERVICE_IFACE w
      w
    else
      { w with services := service_path :: w.services }

/-- The state of the process when `main` starts: nothing emitted, run or
registered, the global buffers zeroed, both counters at 1.  The arguments say
how the environment will answer; method calls can be sent. -/
def World.start (popen_out : Nat → Option String) (fopen_ok : Bool) (nomem : Bool)
    (register_ok : Nat → Bool) : World :=
  { bus_calls := [], wifi_ssid := "", wifi_password := "", commands := [],
    popen_out := popen_out, fopen_ok := fopen_ok, conf := none, nomem := nomem,
    registered := [], register_ok := register_ok, register_calls := 0,
    chr_id := 1, service_id := 1, services := [], paths := [],
    method_call_ok := true, method_calls := [] }

/-- An environment in which every external call succeeds and every command
prints `OK`. -/
def World.quiet : World :=
  World.start (fun _ => some "OK\n") true false (fun _ => true)

/-- The security characteristic as `create_wifi_services` builds it. -/
def chr_security : characteristic :=
  { service := "/service1", uuid := SECURITY_UUID, path := "/service1/characteristic1",
    value := some [20], vlen := 1, props := chr_props }

/-- The configuration descriptor as `create_wifi_services` builds it. -/
def desc_config : descriptor :=
  { chr := "/service1/characteristic4", uuid := CONFIG_UUID,
    path := "/service1/characteristic4/descriptor5", value := none, vlen := 0,
    props := desc_props }

/-! ## Service properties -/

def service_get_primary (_uuid : String) : Bool × DBusValue :=
  let primary := true
  (true, .boolean primary)

def service_get_uuid (uuid : String) : Bool × DBusValue :=
  (true, .string uuid)

/-- The getter of `Includes`.  libdbus copies the string `p` points to when it
is appended, so the second `snprintf` into `service_path` does not touch the
first element. -/
def service_get_includes (_uuid : String) : Bool × DBusValue :=
  let service_path := snprintf 100 "/service3"
  let p := service_path
  let array : List DBusValue := []
  let array := array ++ [.objectPath p]
  let service_path := snprintf 100 "/service2"
  let p := service_path
  let array := array ++ [.objectPath p]
  (true, .array array)

def service_exist_includes (uuid : String) : Bool :=
  if uuid.data.take 8 = "1B7E8251".data then true else false

/-! ## The handshake with the manager and `main` -/

/-- The GLib comparison of two strings, 0 when they are equal. -/
def g_strcmp0 (a : String) (b : String) : Int :=
  if a = b then 0 else if a < b then -1 else 1

def g_dbus_proxy_get_interface (proxy : GDBusProxy) : String :=
  proxy.interface

/-- Sends the call and keeps it until its reply arrives; FALSE when the call
cannot be sent. -/
def g_dbus_proxy_method_call (proxy : GDBusProxy) (method : String) (args : List DBusValue)
    (w : World) : Bool × World :=
  if w.method_call_ok then
    (true, { w with method_calls := w.method_calls ++ [⟨proxy, method, args⟩] })
  else (false, w)

/-- The arguments `register_app_setup` appends: the root path and an empty
dictionary. -/
def register_app_setup : List DBusValue :=
  [.objectPath "/", .array []]

def register_app (proxy : GDBusProxy) (w : World) : World :=
  let (ok, w) := g_dbus_proxy_method_call proxy "RegisterApplication" register_app_setup w
  -- a failure is only printed
  if !ok then w else w

def proxy_added_cb (proxy : GDBusProxy) (w : World) : World :=
  let iface := g_dbus_proxy_get_interface proxy
  if g_strcmp0 iface GATT_MGR_IFACE ≠ 0 then
    w
  else
    register_app proxy w

/-- What the main loop delivers to the handshake: a proxy that appeared on
the bus, or the reply to the oldest method call still waiting (with the draws
`rand()` will give while the reply is handled). -/
inductive Event where
  | proxy_added (proxy : GDBusProxy)
  | method_reply (reply : DBusReply) (rand : Nat → Nat)

/-- The callback gdbus runs for one event: `proxy_added_cb` is the proxy
handler set in `main`; `register_app_reply` is the reply callback of every
call `register_app` sends, and a reply with no call waiting reaches nobody. -/
def dispatch (char_signed : Bool) : Event → World → Except Fault World
  | .proxy_added proxy, w => .ok (proxy_added_cb proxy w)
  | .method_reply reply rand, w =>
    match w.method_calls with
    | [] => .ok w
    | _ :: rest => register_app_reply reply char_signed rand { w with method_calls := rest }

/-- The main loop, run over the events that arrive until it is told to quit. -/
def g_main_loop_run (char_signed : Bool) : List Event → World → Except Fault World
  | [], w => .ok w
  | e :: events, w =>
    match dispatch char_signed e w with
    | .error f => .error f
    | .ok w => g_main_loop_run char_signed events w

/-- The statements of `main` after `g_main_loop_run`: the client and the
signal source are released, the list of service paths is freed with its
strings, and the reference to the connection is dropped. -/
def main_shutdown (w : World) : World :=
  -- g_dbus_client_unref(client); g_source_remove(signal);
  -- g_slist_free_full(services, g_free);
  let w := { w with services := [] }
  -- dbus_connection_unref(connection);
  w

/-- The function `main`: `signal` is what `setup_signalfd` returns, `errno` the
error number it leaves.  The result is the exit status and the final state. -/
def main (signal : Nat) (errno : Int) (char_signed : Bool) (events : List Event)
    (w : World) : Except Fault (Int × World) :=
  if signal = 0 then
    .ok (-errno, w)
  else
    let w := create_wifi_services w
    match g_main_loop_run char_signed events w with
    | .error f => .error f
    | .ok w => .ok (0, main_shutdown w)

/-! ## Sequences of registrations -/

/-- One call of a registration function with its arguments. -/
inductive Registration where
  | service (uuid : String)
  | characteristic (chr_uuid : String) (value : Option (List Byte)) (vlen : Int)
      (props : List String) (desc_uuid : Option String) (desc_props : List String)
      (service_path : String)

def Registration.run : Registration → World → World
  | .service uuid, w => (register_service uuid w).2
  | .characteristic chr_uuid value vlen props desc_uuid desc_props service_path, w =>
    (register_characteristic chr_uuid value vlen props desc_uuid desc_props service_path w).2

/-- The calls of a list made one after the other, first to last. -/
def run_registrations : List Registration → World → World
  | [], w => w
  | call :: calls, w => run_registrations calls (call.run w)

inductive NodeKind where
  | service
  | characteristic
  | descriptor
deriving DecidableEq, Repr

def NodeKind.name : NodeKind → String
  | .service => "service"
  | .characteristic => "characteristic"
  | .descriptor => "descriptor"

/-- A node path by its parts: the path of the parent (empty for a service),
the kind of node and the number taken from the counter. -/
structure NodePath where
  parent : String
  kind : NodeKind
  id : Int
deriving DecidableEq, Repr

/-- The path as text: `<parent>/<kind><id>`. -/
def NodePath.render (p : NodePath) : String :=
  p.parent ++ "/" ++ p.kind.name ++ toString p.id

/-- The numbers that the paths of the service counter (`bySvc = true`) or of
the characteristic counter carry, in the order of the list. -/
def counter_ids (bySvc : Bool) (nodes : List NodePath) : List Int :=
  (nodes.filter (fun p => decide (p.kind = .service) == bySvc)).map (fun p => p.id)

/-- The node behind a registered interface is as `create_wifi_services`
creates it: a characteristic holds the one byte 20 it was given, a descriptor
holds no value. -/
def UserData.as_created : UserData → Prop
  | .service _ => True
  | .chr c => c.value = some [20] ∧ c.vlen = 1
  | .desc d => d.value = none ∧ d.vlen = 0

/-- The start of the process on a bus that refuses every registration. -/
def World.refusing : World :=
  World.start (fun _ => some "OK\n") true false (fun _ => false)

/-- The start of the process on a bus that accepts the first registration
only. -/
def World.accepting_first : World :=
  World.start (fun _ => some "OK\n") true false (fun k => k == 0)

/-! ## The forwarding worker (build with `DUEROS` defined) -/

def DUEROS_SOCKET_RECV_LEN : Nat := 20

/-- What one call of `recv` on the socket does: its return value and the
octets it stores at the start of the buffer. -/
structure RecvResult where
  bytes : Int
  data : List Byte

/-- The return value and the buffer `msg` (of `len` octets) afterwards. -/
def socket_recieve (sockfd : Int) (msg : List Byte) (len : Nat) (r : RecvResult) :
    Int × List Byte :=
  if sockfd < 0 then
    (-1, msg)
  else
    (r.bytes, (r.data ++ msg.drop r.data.length).take len)

/-- The `while` loop of `dueros_socket_recieve`, the worker running alone.
Each element of the schedule is one pass: what `dueros_socket_done` holds when
the loop tests it (non-zero means keep running) and what `recv` does if it is
reached; with the schedule used up the worker waits in `recv`.  `dueros_chr`
is the global pointer to the designated characteristic, `none` for NULL. -/
def dueros_socket_recieve_loop (dueros_socket_fd : Int) :
    List (Bool × RecvResult) → Option characteristic → World →
      Except Fault (Option characteristic × World)
  | [], dueros_chr, w => .ok (dueros_chr, w)
  | (dueros_socket_done, r) :: schedule, dueros_chr, w =>
    if !dueros_socket_done then
      .ok (dueros_chr, w)
    else
      let data : List Byte := List.replicate DUEROS_SOCKET_RECV_LEN 0
      let (bytes, data) := socket_recieve dueros_socket_fd data DUEROS_SOCKET_RECV_LEN r
      if bytes ≤ 0 then
        .ok (dueros_chr, w)
      else
        match dueros_chr with
        | none => .error .null_characteristic
        | some chr =>
          let (chr, w) := chr_write chr (some data) bytes w
          -- usleep(1000000)
          dueros_socket_recieve_loop dueros_socket_fd schedule (some chr) w

/-- The thread function; `fd` is what `setup_socket_client` returns. -/
def dueros_socket_recieve (fd : Int) (schedule : List (Bool × RecvResult))
    (dueros_chr : Option characteristic) (w : World) :
    Except Fault (Option characteristic × World) :=
  let dueros_socket_fd := fd
  if dueros_socket_fd < 0 then
    .ok (dueros_chr, w)
  else
    dueros_socket_recieve_loop dueros_socket_fd schedule dueros_chr w

/-! ## Texts and path descriptions used in the statements -/

/-- The C string with the given octets, one character per octet. -/
def bytes_text (bytes : List Byte) : String :=
  String.mk (bytes.map (fun b => Char.ofNat b.val))

/-- The octets of a text. -/
def text_bytes (s : String) : List Byte :=
  s.data.map (fun c => Fin.ofNat c.toNat)

/-- The SSID characteristic as `create_wifi_services` builds it. -/
def chr_ssid : characteristic :=
  { service := "/service1", uuid := SSID_UUID, path := "/service1/characteristic2",
    value := some [20], vlen := 1, props := chr_props }

/-- The password characteristic as `create_wifi_services` builds it. -/
def chr_password : characteristic :=
  { service := "/service1", uuid := PASSWORD_UUID, path := "/service1/characteristic3",
    value := some [20], vlen := 1, props := chr_props }

/-- A character of the decimal text of an `int`: a digit or the minus sign. -/
def is_number_char (c : Char) : Bool := c.isDigit || c == Char.ofNat 45

/-- The number a list of decimal digits denotes. -/
def digits_value (cs : List Char) : Nat :=
  cs.foldl (fun a c => a * 10 + (c.toNat - 48)) 0

/-- The paths built so far are the renderings of `nodes`, whose numbers are
below the counters, distinct, and increasing along each counter. -/
def paths_described (paths : List String) (service_id chr_id : Int) (nodes : List NodePath) :
    Prop :=
  paths = nodes.map NodePath.render ∧
  (∀ q ∈ nodes, q.kind = .service → q.id < service_id) ∧
  (∀ q ∈ nodes, q.kind ≠ .service → q.id < chr_id) ∧
  (counter_ids true nodes).Pairwise (· < ·) ∧
  (counter_ids false nodes).Pairwise (· < ·) ∧
  nodes.Nodup

/-- The four command lines that `wpa_cli_config_wifi` formats, in program
order, for the network number `id` and the two captured fields. -/
def wpa_cli_steps (id : Int) (ssid psk : String) : List String :=
  ["wpa_cli -iwlan0 add_network",
   "wpa_cli -iwlan0 set_network " ++ toString id ++ " ssid \\\"" ++ ssid ++ "\\\"",
   "wpa_cli -iwlan0 set_network " ++ toString id ++ " psk \\\"" ++ psk ++ "\\\"",
   "wpa_cli -iwlan0 select_network " ++ toString id]

/-- What the `k`-th command run from now on prints (`k` counted from 0). -/
def World.printed (w : World) (k : Nat) : String :=
  (w.popen_out (w.commands.length + k)).getD ""

/-- An environment in which the first command prints `0` and every later one
prints `FAIL`; every other external call succeeds. -/
def World.failing : World :=
  World.start (fun k => if k = 0 then some "0\n" else some "FAIL\n") true false (fun _ => true)

/-- The lower-case hexadecimal digit of a number below 16. -/
def hex_digit (n : Nat) : Char :=
  if n < 10 then Char.ofNat (48 + n) else Char.ofNat (87 + n)

/-- A number below 256 as two hexadecimal digits. -/
def two_hex_digits (n : Nat) : String :=
  String.mk [hex_digit (n / 16), hex_digit (n % 16)]

/-- The field of the set-random-address command for the address byte `b`: two
hexadecimal digits, preceded by `ffffff` when `char` is signed and the byte
has its top bit set. -/
def address_field (char_signed : Bool) (b : Nat) : String :=
  if char_signed ∧ 128 ≤ b then "ffffff" ++ two_hex_digits b else two_hex_digits b

/-! ## The body of a message in memory

The pointer that `dbus_message_iter_get_fixed_array` returns points into the
body of the message, where the arguments lie one after the other in the wire
format of the D-Bus specification (here for a little-endian message): every
value starts at a multiple of its alignment, counted from the start of the
body, after padding with zero octets. -/

/-- The zero octets that bring `offset` to a multiple of `boundary`. -/
def padding (offset : Nat) (boundary : Nat) : List Byte :=
  List.replicate ((boundary - offset % boundary) % boundary) 0

def DBusValue.alignment : DBusValue → Nat
  | .byte _ => 1
  | .boolean _ => 4
  | .int32 _ => 4
  | .string _ => 4
  | .objectPath _ => 4
  | .variant _ => 1
  | .array _ => 4
  | .dictEntry _ _ => 8

mutual
/-- The type signature of a value.  The element type of an array is that of
its first element; an empty array carries none in the model. -/
def DBusValue.signature : DBusValue → List Char
  | .byte _ => [Char.ofNat 121]
  | .boolean _ => [Char.ofNat 98]
  | .int32 _ => [Char.ofNat 105]
  | .string _ => [Char.ofNat 115]
  | .objectPath _ => [Char.ofNat 111]
  | .variant _ => [Char.ofNat 118]
  | .array items => Char.ofNat 97 :: DBusValue.signature_first items
  | .dictEntry _ _ => [Char.ofNat 123, Char.ofNat 115, Char.ofNat 118, Char.ofNat 125]
def DBusValue.signature_first : List DBusValue → List Char
  | [] => []
  | v :: _ => DBusValue.signature v
end

/-- A string or object path at `offset`: its length in 32 bits, its octets and
a NUL. -/
def marshal_string (offset : Nat) (s : String) : List Byte :=
  padding offset 4 ++ marshal32 s.length ++ text_bytes s ++ [0]

/-- The signature that opens a variant: its length in one octet, its
characters and a NUL. -/
def marshal_signature (sig : List Char) : List Byte :=
  (Fin.ofNat sig.length : Byte) :: (sig.map (fun c => (Fin.ofNat c.toNat : Byte)) ++ [0])

mutual
/-- The octets of a value that starts at `offset`, its leading padding
included.  An array is the length of its data in 32 bits, padding to the
alignment of its elements (none in the model when the array is empty) and the
elements; a dictionary entry is aligned to 8 and holds its key and the variant
of its value. -/
def marshal (offset : Nat) : DBusValue → List Byte
  | .byte b => [b]
  | .boolean b => padding offset 4 ++ marshal32 (if b then 1 else 0)
  | .int32 n => padding offset 4 ++ marshal32 n
  | .string s => marshal_string offset s
  | .objectPath s => marshal_string offset s
  | .variant v =>
    let sig := marshal_signature (DBusValue.signature v)
    sig ++ marshal (offset + sig.length) v
  | .array items =>
    let head := padding offset 4
    let start := offset + head.length + 4
    let gap := padding start ((items.head?.map DBusValue.alignment).getD 1)
    let data := marshal_items (start + gap.length) items
    head ++ marshal32 data.length ++ gap ++ data
  | .dictEntry key value =>
    let head := padding offset 8
    let k := marshal_string (offset + head.length) key
    let sig := marshal_signature (DBusValue.signature value)
    head ++ k ++ sig ++ marshal (offset + head.length + k.length + sig.length) value
def marshal_items (offset : Nat) : List DBusValue → List Byte
  | [] => []
  | v :: rest => marshal offset v ++ marshal_items (offset + (marshal offset v).length) rest
end

/-- The memory behind the data of the first argument of a message when that
argument is an array of fixed-width values: the array starts the body, its
data starts at offset 4, the other arguments follow, and libdbus keeps a NUL
behind the body.  This is what `strcpy` reads when the array holds no NUL. -/
def body_after : DBusMessage → List Byte
  | .array items :: rest => marshal_items (4 + (marshalFixed items).length) rest ++ [0]
  | _ => [0]

/-- The text that `strcpy` copies from the payload `v` of the message `msg`:
the octets from the start of the payload to the first NUL in the body. -/
def captured_text (msg : DBusMessage) (v : List Byte) : String :=
  bytes_text ((v ++ body_after msg).takeWhile (fun b => b ≠ 0))

end GattService

/-! # src/main.c: the configuration file of the daemon -/

namespace Bluetoothd

/-- Modelled from the spec: the enumeration `bt_mode_t` is declared in the
header `src/hcid.h`, which is not among the sources. -/
inductive bt_mode_t where
  | BT_MODE_DUAL
  | BT_MODE_BREDR
  | BT_MODE_LE
deriving DecidableEq, Repr

/-- Modelled from the spec: the enumeration `bt_gatt_cache_t` is declared in
the header `src/hcid.h`, which is not among the sources. -/
inductive bt_gatt_cache_t where
  | BT_GATT_CACHE_ALWAYS
  | BT_GATT_CACHE_YES
  | BT_GATT_CACHE_NO
deriving DecidableEq, Repr

/-- The anonymous enumeration of the static variable `mps`. -/
inductive mps_t where
  | MPS_OFF
  | MPS_SINGLE
  | MPS_MULTIPLE
deriving DecidableEq, Repr

/-- Modelled from the spec: `struct main_opts` is declared in the header
`src/hcid.h`, which is not among the sources.  These are the fields
`parse_config` and `parse_did` assign, unsigned integers of 32 bits
(`class_`, standing for the field `class`, `pairto`, `discovto`), 16 bits (the
four `did_` fields) and 8 bits (`privacy`, `min_enc_key_size`). -/
structure main_opts_t where
  name : Option String
  class_ : Nat
  pairto : Nat
  discovto : Nat
  privacy : Nat
  reverse_sdp : Bool
  name_resolv : Bool
  debug_keys : Bool
  fast_conn : Bool
  did_source : Nat
  did_vendor : Nat
  did_product : Nat
  did_version : Nat
  mode : bt_mode_t
  gatt_cache : bt_gatt_cache_t
  min_enc_key_size : Nat
deriving DecidableEq, Repr

/-- A loaded key file (GLib `GKeyFile`), by what its typed getters answer for
a group and a key: `none` when the getter sets `err` (the group or the key is
missing, or the value cannot be read as that type). -/
structure GKeyFile where
  g_key_file_get_integer : String → String → Option Int
  g_key_file_get_string : String → String → Option String
  g_key_file_get_boolean : String → String → Option Bool

/-- The two C library conversions `parse_config` relies on.  `sscanf_hx3 format
input` is `sscanf` with a format of three `%4hx`: its return value and the
values it assigned, in order.  `strtol16` is `strtol(str, NULL, 16)`. -/
structure LibC where
  sscanf_hx3 : String → String → Int × List Nat
  strtol16 : String → Int

def EOF : Int := -1

/-- The three targets of a `sscanf` call after it assigned `vals`. -/
def sscanf_assign (vals : List Nat) (vendor product version : Nat) : Nat × Nat × Nat :=
  (vals.getD 0 vendor, vals.getD 1 product, vals.getD 2 version)

/-- The locals `vendor` and `product` are not initialised: `vendor0` and
`product0` are what they happen to hold. -/
def parse_did (libc : LibC) (did : String) (vendor0 product0 : Nat)
    (main_opts : main_opts_t) : main_opts_t :=
  -- version and source are optional
  let version := 0x0000
  let source := 0x0002
  let (result, vals) := libc.sscanf_hx3 "bluetooth:%4hx:%4hx:%4hx" did
  let (vendor, product, version) := sscanf_assign vals vendor0 product0 version
  if result ≠ EOF ∧ result ≥ 2 then
    { main_opts with did_source := 0x0001, did_vendor := vendor, did_product := product,
                     did_version := version }
  else
    let (result, vals) := libc.sscanf_hx3 "usb:%4hx:%4hx:%4hx" did
    let (vendor, product, version) := sscanf_assign vals vendor product version
    if result ≠ EOF ∧ result ≥ 2 then
      { main_opts with did_source := source, did_vendor := vendor, did_product := product,
                       did_version := version }
    else
      let (result, vals) := libc.sscanf_hx3 "%4hx:%4hx:%4hx" did
      let (vendor, product, version) := sscanf_assign vals vendor product version
      if result = EOF ∨ result < 2 then
        main_opts
      else
        { main_opts with did_source := source, did_vendor := vendor, did_product := product,
                         did_version := version }

def parse_gatt_cache (cache : String) : bt_gatt_cache_t :=
  if cache = "always" then .BT_GATT_CACHE_ALWAYS
  else if cache = "yes" then .BT_GATT_CACHE_YES
  else if cache = "no" then .BT_GATT_CACHE_NO
  else .BT_GATT_CACHE_ALWAYS

def get_mode (str : String) : bt_mode_t :=
  if str = "dual" then .BT_MODE_DUAL
  else if str = "bredr" then .BT_MODE_BREDR
  else if str = "le" then .BT_MODE_LE
  else .BT_MODE_DUAL

/-- The function `parse_config` on the globals `main_opts` and `mps`; `config`
is `none` for a NULL key file.  `check_config` and `DBG` only log. -/
def parse_config (libc : LibC) (config : Option GKeyFile) (vendor0 product0 : Nat)
    (main_opts : main_opts_t) (mps : mps_t) : main_opts_t × mps_t :=
  match config with
  | none => (main_opts, mps)
  | some config =>
    let main_opts :=
      match config.g_key_file_get_integer "General" "DiscoverableTimeout" with
      | none => main_opts
      | some val => { main_opts with discovto := (val % 4294967296).toNat }
    let main_opts :=
      match config.g_key_file_get_integer "General" "PairableTimeout" with
      | none => main_opts
      | some val => { main_opts with pairto := (val % 4294967296).toNat }
    let main_opts :=
      match config.g_key_file_get_string "General" "Privacy" with
      | none => { main_opts with privacy := 0x00 }
      | some str =>
        if str = "device" then { main_opts with privacy := 0x01 }
        else if str = "off" then { main_opts with privacy := 0x00 }
        else { main_opts with privacy := 0x00 }
    let main_opts :=
      match config.g_key_file_get_string "General" "Name" with
      | none => main_opts
      | some str => { main_opts with name := some str }
    let main_opts :=
      match config.g_key_file_get_string "General" "Class" with
      | none => main_opts
      | some str => { main_opts with class_ := (libc.strtol16 str % 4294967296).toNat }
    let main_opts :=
      match config.g_key_file_get_string "General" "DeviceID" with
      | none => main_opts
      | some str => parse_did libc str vendor0 product0 main_opts
    let main_opts :=
      match config.g_key_file_get_boolean "General" "ReverseServiceDiscovery" with
      | none => main_opts
      | some boolean => { main_opts with reverse_sdp := boolean }
    let main_opts :=
      match config.g_key_file_get_boolean "General" "NameResolving" with
      | none => main_opts
      | some boolean => { main_opts with name_resolv := boolean }
    let main_opts :=
      match config.g_key_file_get_boolean "General" "DebugKeys" with
      | none => main_opts
      | some boolean => { main_opts with debug_keys := boolean }
    let main_opts :=
      match config.g_key_file_get_string "General" "ControllerMode" with
      | none => main_opts
      | some str => { main_opts with mode := get_mode str }
    let mps :=
      match config.g_key_file_get_string "General" "MultiProfile" with
      | none => mps
      | some str =>
        if str = "single" then .MPS_SINGLE
        else if str = "multiple" then .MPS_MULTIPLE
        else mps
    let main_opts :=
      match config.g_key_file_get_boolean "General" "FastConnectable" with
      | none => main_opts
      | some boolean => { main_opts with fast_conn := boolean }
    let main_opts :=
      match config.g_key_file_get_string "GATT" "Cache" with
      | none => { main_opts with gatt_cache := .BT_GATT_CACHE_ALWAYS }
      | some str => { main_opts with gatt_cache := parse_gatt_cache str }
    let main_opts :=
      match config.g_key_file_get_integer "GATT" "MinEncKeySize" with
      | none => main_opts
      | some val =>
        if val ≥ 7 ∧ val ≤ 16 then
          { main_opts with min_enc_key_size := (val % 256).toNat }
        else main_opts
    (main_opts, mps)

/-- The options before any configuration is read, with the minimum key size
given. -/
def main_opts_with (min_enc_key_size : Nat) : main_opts_t :=
  { name := none, class_ := 0, pairto := 0, discovto := 180, privacy := 0,
    reverse_sdp := true, name_resolv := true, debug_keys := false, fast_conn := false,
    did_source := 0, did_vendor := 0, did_product := 0, did_version := 0,
    mode := .BT_MODE_DUAL, gatt_cache := .BT_GATT_CACHE_ALWAYS,
    min_enc_key_size := min_enc_key_size }

/-- A key file that holds nothing but `MinEncKeySize` in the group `GATT`. -/
def key_file_with_key_size (val : Int) : GKeyFile :=
  { g_key_file_get_integer := fun group key =>
      if group = "GATT" ∧ key = "MinEncKeySize" then some val else none,
    g_key_file_get_string := fun _ _ => none,
    g_key_file_get_boolean := fun _ _ => none }

/-- A C library whose conversions find nothing. -/
def libc_blank : LibC :=
  { sscanf_hx3 := fun _ _ => (0, []), strtol16 := fun _ => 0 }

end Bluetoothd

namespace GattService

/-! ## Facts about the library model -/

theorem chr_write_eq (chr : characteristic) (value : Option (List Byte)) (len : Int)
    (w : World) :
    chr_write chr value len w
      = ({ chr with value := g_memdup value len, vlen := len },
         g_dbus_emit_property_changed chr.path GATT_CHR_IFACE "Value" w) :=
  rfl

theorem desc_write_eq (desc : descriptor) (value : Option (List Byte)) (len : Int)
    (w : World) :
    desc_write desc value len w
      = ({ desc with value := g_memdup value len, vlen := len },
         g_dbus_emit_property_changed desc.path GATT_DESCRIPTOR_IFACE "Value" w) :=
  rfl

theorem desc_set_value_eq (iter : DBusMessageIter) (id : Nat) (desc : descriptor)
    (value0 : Option (List Byte)) (len0 : Int) (w : World) :
    desc_set_value iter id desc value0 len0 w
      = if (parse_value iter value0 len0).1 ≠ 0 then
          (desc, g_dbus_pending_property_error id (ERROR_INTERFACE ++ ".InvalidArguments")
            "Invalid arguments in method call" w)
        else
          ((desc_write desc (parse_value iter value0 len0).2.1
              (parse_value iter value0 len0).2.2 w).1,
           g_dbus_pending_property_success id
            (desc_write desc (parse_value iter value0 len0).2.1
              (parse_value iter value0 len0).2.2 w).2) := by
  unfold desc_set_value desc_set_value_stmts
  rcases hp : parse_value iter value0 len0 with ⟨r, value, len⟩
  by_cases h : r ≠ 0
  · simp only [h, if_true, ne_eq, not_false_eq_true]
    rfl
  · simp only [h, if_false, ne_eq, not_true_eq_false]
    rfl

theorem marshalFixed_bytes (v : List Byte) : marshalFixed (v.map DBusValue.byte) = v := by
  induction v with
  | nil => rfl
  | cons b t ih => simp [marshalFixed, ih]

theorem parse_value_bytes (v : List Byte) (rest : List DBusValue)
    (value0 : Option (List Byte)) (len0 : Int) :
    parse_value (.array (v.map DBusValue.byte) :: rest) value0 len0 =
      (0, if v = [] then none else some v, (v.length : Int)) := by
  cases v with
  | nil =>
    simp [parse_value, dbus_message_iter_get_arg_type, DBusValue.argType,
      dbus_message_iter_recurse, dbus_message_iter_get_fixed_array]
  | cons b t =>
    have h := marshalFixed_bytes (b :: t)
    simp only [List.map_cons] at h
    simp [parse_value, dbus_message_iter_get_arg_type, DBusValue.argType,
      dbus_message_iter_recurse, dbus_message_iter_get_fixed_array, h]

theorem parse_options_bytes (v : List Byte) (rest : List DBusValue) :
    parse_options (.array (v.map DBusValue.byte) :: rest) = (0, none) := by
  cases v with
  | nil =>
    simp [parse_options, dbus_message_iter_get_arg_type, DBusValue.argType,
      dbus_message_iter_recurse, parse_options_loop]
  | cons b t =>
    simp [parse_options, dbus_message_iter_get_arg_type, DBusValue.argType,
      dbus_message_iter_recurse, parse_options_loop, DBUS_TYPE_BYTE, DBUS_TYPE_DICT_ENTRY]

theorem g_memdup_whole (v : List Byte) (hlen : v.length ≤ 67108864) :
    g_memdup (if v = [] then none else some v) (v.length : Int) =
      if v = [] then none else some v := by
  by_cases hv : v = []
  · simp [hv, g_memdup]
  · have hpos : 0 < v.length := List.length_pos.mpr hv
    have hmod : (v.length : Int) % 4294967296 = (v.length : Int) :=
      Int.emod_eq_of_lt (by omega) (by omega)
    have hne : (v.length : Int) ≠ 0 := by omega
    simp [hv, g_memdup, hmod, hne]

theorem low_bits_or_64 (y : Fin 64) :
    y.val ||| 64 = 64 + y.val ∧ (y.val ||| 64).testBit 6 = true ∧
      (y.val ||| 64).testBit 7 = false := by
  revert y
  decide

theorem send_advertise_addr_eq (rand : Nat → Nat) :
    send_advertise_addr rand =
      [64 + rand 0 % 64, rand 1 % 256, rand 2 % 256, rand 3 % 256, rand 4 % 256,
        rand 5 % 256] := by
  have h255 : ∀ x : Nat, x &&& 255 = x % 256 := fun x => Nat.and_pow_two_sub_one_eq_mod x 8
  have h63 : ∀ x : Nat, x &&& 63 = x % 64 := fun x => Nat.and_pow_two_sub_one_eq_mod x 6
  have hr : List.range 6 = [0, 1, 2, 3, 4, 5] := by decide
  have h0 : rand 0 % 256 % 64 ||| 64 = 64 + rand 0 % 64 := by
    have hlt : rand 0 % 256 % 64 < 64 := Nat.mod_lt _ (by decide)
    have h := (low_bits_or_64 ⟨rand 0 % 256 % 64, hlt⟩).1
    simp only at h
    rw [h]
    omega
  simp [send_advertise_addr, hr, h255, h63, h0]

theorem register_app_reply_eq (reply : DBusReply) (char_signed : Bool) (rand : Nat → Nat)
    (w : World) : register_app_reply reply char_signed rand w = send_advertise char_signed rand w := by
  simp [register_app_reply]

theorem execute_eq (cmdline : String) (size : Nat) (w : World)
    (hpopen : ∀ k, ∃ out, w.popen_out k = some out ∧ out.length < size) :
    execute cmdline size w
      = .ok ((w.popen_out w.commands.length).getD "",
          { w with commands := w.commands ++ [cmdline] }) := by
  obtain ⟨out, hout, hlen⟩ := hpopen w.commands.length
  have hfit : ¬ size ≤ out.length := by omega
  simp [execute, hout, hfit]

/-- When every registration succeeds, `create_wifi_services` leaves the
service, its four characteristics and the descriptor registered, in creation
order; `chr_security` and `desc_config` are the first characteristic and the
descriptor of that tree. -/
theorem create_wifi_services_quiet :
    (create_wifi_services World.quiet).registered.map (fun r => r.1)
      = ["/service1", "/service1/characteristic1", "/service1/characteristic2",
         "/service1/characteristic3", "/service1/characteristic4",
         "/service1/characteristic4/descriptor5"] ∧
    ("/service1/characteristic1", GATT_CHR_IFACE, UserData.chr chr_security)
      ∈ (create_wifi_services World.quiet).registered ∧
    ("/service1/characteristic4/descriptor5", GATT_DESCRIPTOR_IFACE, UserData.desc desc_config)
      ∈ (create_wifi_services World.quiet).registered := by
  refine ⟨by rfl, ?_, ?_⟩ <;> decide

/-! ## Value handlers -/

/-- C1 (code defect).  Round trip on a characteristic fails: `chr_write_value`
never calls `chr_write`.  On the security characteristic holding `[20]`,
WriteValue of `[1, 2, 3]` replies success and leaves the struct as it was, and
the ReadValue that follows returns `[20]`. -/
theorem chr_write_value_then_read_keeps_old_value :
    chr_write_value
        [.array [.byte 1, .byte 2, .byte 3], .array []] [] chr_security none 0 World.quiet
        = .ok (some (.method_return []), chr_security, World.quiet) ∧
    (chr_read_value [.array []] chr_security World.quiet).1
      = some (.method_return [.array [.byte 20]]) := by
  constructor
  · simp [chr_write_value, dbus_message_iter_init, parse_value, parse_options,
      dbus_message_iter_get_arg_type, DBusValue.argType, dbus_message_iter_recurse,
      dbus_message_iter_get_fixed_array, parse_options_loop, DBUS_TYPE_BYTE,
      DBUS_TYPE_DICT_ENTRY, chr_security, SSID_UUID, PASSWORD_UUID, SECURITY_UUID,
      dbus_message_new_method_return, World.quiet, World.start]
    rfl
  · simp [chr_read_value, dbus_message_iter_init, parse_options,
      dbus_message_iter_get_arg_type, DBusValue.argType, dbus_message_iter_recurse,
      parse_options_loop, dbus_message_new_method_return, World.quiet, World.start,
      DBusReply.append, chr_read, append_byte_array, chr_security]

/-- C2.  Round trip on a descriptor: after `desc_write_value` has handled
WriteValue of the bytes `v` (any options, any earlier state), `desc_read_value`
answers a ReadValue whose options parse with exactly `v`; the write itself
replied success.  `v` has at most the 2^26 octets of a D-Bus array and libdbus
can allocate the replies. -/
theorem desc_write_value_read_value_round_trip (desc : descriptor) (w : World)
    (v : List Byte) (rest : List DBusValue) (value0 : Option (List Byte)) (len0 : Int)
    (rmsg : DBusMessage) (hlen : v.length ≤ 67108864)
    (hopts : (parse_options rmsg).1 = 0) (hmem : w.nomem = false) :
    (desc_write_value (.array (v.map DBusValue.byte) :: rest) desc value0 len0 w).1
      = some (.method_return []) ∧
    (desc_read_value rmsg
        (desc_write_value (.array (v.map DBusValue.byte) :: rest) desc value0 len0 w).2.1
        (desc_write_value (.array (v.map DBusValue.byte) :: rest) desc value0 len0 w).2.2).1
      = some (.method_return [.array (v.map DBusValue.byte)]) := by
  have hne : rmsg ≠ [] := by
    intro h
    subst h
    simp [parse_options, dbus_message_iter_get_arg_type, DBUS_TYPE_INVALID,
      DBUS_TYPE_ARRAY, EINVAL] at hopts
  have hw : desc_write_value (.array (v.map DBusValue.byte) :: rest) desc value0 len0 w =
      (some (.method_return []),
        { desc with value := if v = [] then none else some v, vlen := (v.length : Int) },
        g_dbus_emit_property_changed desc.path GATT_DESCRIPTOR_IFACE "Value" w) := by
    simp [desc_write_value, dbus_message_iter_init, parse_value_bytes, parse_options_bytes,
      desc_write_eq, g_memdup_whole v hlen, dbus_message_new_method_return,
      g_dbus_emit_property_changed, hmem]
  rw [hw]
  refine ⟨rfl, ?_⟩
  cases rmsg with
  | nil => exact absurd rfl hne
  | cons a t =>
    by_cases hv : v = []
    · subst hv
      simp [desc_read_value, dbus_message_iter_init, hopts, dbus_message_new_method_return,
        g_dbus_emit_property_changed, hmem, DBusReply.append, desc_read]
    · have hpos : 0 < v.length := List.length_pos.mpr hv
      have hz : (v.length : Int) ≠ 0 := by omega
      simp [desc_read_value, dbus_message_iter_init, hopts, dbus_message_new_method_return,
        g_dbus_emit_property_changed, hmem, DBusReply.append, desc_read, hv, hz,
        append_byte_array]

/-- The round trip of C2 on the configuration descriptor, for `[1, 2, 3]`. -/
theorem desc_write_value_read_value_round_trip_witness :
    (desc_write_value (.array ([1, 2, 3].map DBusValue.byte) :: [.array []]) desc_config
        none 0 World.quiet).1 = some (.method_return []) ∧
    (desc_read_value [.array []]
        (desc_write_value (.array ([1, 2, 3].map DBusValue.byte) :: [.array []]) desc_config
          none 0 World.quiet).2.1
        (desc_write_value (.array ([1, 2, 3].map DBusValue.byte) :: [.array []]) desc_config
          none 0 World.quiet).2.2).1
      = some (.method_return [.array ([1, 2, 3].map DBusValue.byte)]) :=
  desc_write_value_read_value_round_trip desc_config World.quiet [1, 2, 3] [.array []] none 0
    [.array []] (by decide) (by
      simp [parse_options, dbus_message_iter_get_arg_type, DBusValue.argType,
        dbus_message_iter_recurse, parse_options_loop]) rfl

/-- C3 (code defect).  Set of "Value" on a characteristic with a well-formed
byte array: because of the inverted test `!parse_value(...)`, `chr_set_value`
leaves the characteristic as it was, emits nothing and completes the pending
Set with the InvalidArguments error, for every characteristic and every byte
array. -/
theorem chr_set_value_rejects_byte_array (chr : characteristic) (w : World) (id : Nat)
    (v : List Byte) (rest : List DBusValue) (value0 : Option (List Byte)) (len0 : Int) :
    chr_set_value (.array (v.map DBusValue.byte) :: rest) id chr value0 len0 w =
      (chr, { w with bus_calls := w.bus_calls ++
        [.pending_error id "org.bluez.Error.InvalidArguments"
          "Invalid arguments in method call"] }) := by
  simp [chr_set_value, parse_value_bytes, g_dbus_pending_property_error, ERROR_INTERFACE]

/-- C4 (code defect).  Validation purity fails in `chr_set_value`: a payload
that is a string, not an array, gets past the inverted test; the value and
length of the characteristic are overwritten with what the uninitialised
locals hold, a Value change notification is emitted and the Set is completed
with success. -/
theorem chr_set_value_non_array_mutates (value0 : Option (List Byte)) (len0 : Int) :
    (chr_set_value [.string "x"] 7 chr_security value0 len0 World.quiet).1.value
      = g_memdup value0 len0 ∧
    (chr_set_value [.string "x"] 7 chr_security value0 len0 World.quiet).1.vlen = len0 ∧
    (chr_set_value [.string "x"] 7 chr_security value0 len0 World.quiet).2.bus_calls
      = [.property_changed "/service1/characteristic1" "org.bluez.GattCharacteristic1" "Value",
         .pending_success 7] := by
  simp [chr_set_value, parse_value, dbus_message_iter_get_arg_type, DBusValue.argType,
    DBUS_TYPE_STRING, DBUS_TYPE_ARRAY, EINVAL, chr_write_eq, g_dbus_emit_property_changed,
    g_dbus_pending_property_success, chr_security, World.quiet, World.start, GATT_CHR_IFACE]

/-- C5.  Invalid Set on a descriptor: when the iterator handed to
`desc_set_value` is not at an array, the one thing put on the bus is the
completion of the pending Set with the InvalidArguments error, the descriptor
is unchanged, and `desc_get_value` returns what it returned before. -/
theorem desc_set_value_invalid (desc : descriptor) (w : World) (id : Nat)
    (iter : DBusMessageIter) (value0 : Option (List Byte)) (len0 : Int)
    (hshape : dbus_message_iter_get_arg_type iter ≠ DBUS_TYPE_ARRAY) :
    (desc_set_value iter id desc value0 len0 w).2.bus_calls = w.bus_calls ++
      [.pending_error id "org.bluez.Error.InvalidArguments"
        "Invalid arguments in method call"] ∧
    desc_get_value (desc_set_value iter id desc value0 len0 w).1 = desc_get_value desc ∧
    (desc_set_value iter id desc value0 len0 w).1 = desc := by
  simp [desc_set_value_eq, parse_value, hshape, EINVAL, g_dbus_pending_property_error,
    ERROR_INTERFACE]

/-- The invalid Set of C5 on the configuration descriptor, with a string as
payload. -/
theorem desc_set_value_invalid_witness :
    (desc_set_value [.string "x"] 7 desc_config none 0 World.quiet).2.bus_calls =
      World.quiet.bus_calls ++
      [.pending_error 7 "org.bluez.Error.InvalidArguments"
        "Invalid arguments in method call"] ∧
    desc_get_value (desc_set_value [.string "x"] 7 desc_config none 0 World.quiet).1
      = desc_get_value desc_config ∧
    (desc_set_value [.string "x"] 7 desc_config none 0 World.quiet).1 = desc_config :=
  desc_set_value_invalid desc_config World.quiet 7 [.string "x"] none 0 (by decide)

/-- C6.  Notification pairing: `chr_write` and `desc_write` go through three
states: the value stored, then the length stored, then, with both fields
already holding the new content, one property-changed call appended to the
trace, for the node's own path, its interface and the property "Value".  The
bus trace is untouched until that last step, the result of the function is
the last state, and it differs from the state before the call by the two
fields and that one notification. -/
theorem write_emits_one_notification (chr : characteristic) (desc : descriptor)
    (value : Option (List Byte)) (len : Int) (w : World) :
    (run_states (chr_write_stmts value len) (chr, w)
        = [({ chr with value := g_memdup value len }, w),
           ({ chr with value := g_memdup value len, vlen := len }, w),
           ({ chr with value := g_memdup value len, vlen := len },
            { w with bus_calls := w.bus_calls ++
                [.property_changed chr.path GATT_CHR_IFACE "Value"] })] ∧
      (run_states (chr_write_stmts value len) (chr, w)).getLast?
        = some (chr_write chr value len w) ∧
      (chr_write chr value len w).2.bus_calls
        = w.bus_calls ++ [.property_changed chr.path GATT_CHR_IFACE "Value"] ∧
      (chr_write chr value len w).1
        = { chr with value := g_memdup value len, vlen := len } ∧
      (chr_write chr value len w).2
        = g_dbus_emit_property_changed (chr_write chr value len w).1.path
            GATT_CHR_IFACE "Value" w) ∧
    (run_states (desc_write_stmts value len) (desc, w)
        = [({ desc with value := g_memdup value len }, w),
           ({ desc with value := g_memdup value len, vlen := len }, w),
           ({ desc with value := g_memdup value len, vlen := len },
            { w with bus_calls := w.bus_calls ++
                [.property_changed desc.path GATT_DESCRIPTOR_IFACE "Value"] })] ∧
      (run_states (desc_write_stmts value len) (desc, w)).getLast?
        = some (desc_write desc value len w) ∧
      (desc_write desc value len w).2.bus_calls
        = w.bus_calls ++ [.property_changed desc.path GATT_DESCRIPTOR_IFACE "Value"] ∧
      (desc_write desc value len w).1
        = { desc with value := g_memdup value len, vlen := len } ∧
      (desc_write desc value len w).2
        = g_dbus_emit_property_changed (desc_write desc value len w).1.path
            GATT_DESCRIPTOR_IFACE "Value" w) := by
  refine ⟨⟨rfl, rfl, ?_, ?_, ?_⟩, ⟨rfl, rfl, ?_, ?_, ?_⟩⟩ <;>
    simp [chr_write_eq, desc_write_eq, g_dbus_emit_property_changed]

/-! ## Advertising -/

/-- C7 (counterexample).  An error reply to RegisterApplication is followed by
the advertising sequence all the same: the three commands are issued. -/
theorem register_app_reply_error_advertises :
    ∃ w1, register_app_reply (.error "org.bluez.Error.Failed" "Failed") false (fun _ => 0)
        World.quiet = .ok w1 ∧
      w1.commands = ["hcitool -i hci0 cmd 0x08 0x0005 40 00 00 00 00 00 ", CMD_ADV, CMD_EN] := by
  refine ⟨_, rfl, ?_⟩
  rfl

/-- C7 (amended).  For every reply delivered to `register_app_reply`, a success
or an error, the handler runs `send_advertise` once, on the state it was
entered with: the reply decides only what is printed. -/
theorem register_app_reply_always_advertises (reply : DBusReply) (char_signed : Bool)
    (rand : Nat → Nat) (w : World) :
    register_app_reply reply char_signed rand w = send_advertise char_signed rand w := by
  simp [register_app_reply]

/-- C8.  Address pattern: whatever the six values of `rand()`, the address
has six bytes; the first is 0x40 plus the low six bits of the first draw, so
bit 6 is set, bit 7 is clear and the byte lies in 0x40..0x7F; the other five
are the low eight bits of their draws. -/
theorem send_advertise_addr_pattern (rand : Nat → Nat) :
    send_advertise_addr rand =
      [(send_advertise_addr rand).getD 0 0, rand 1 % 256, rand 2 % 256, rand 3 % 256,
        rand 4 % 256, rand 5 % 256] ∧
    ((send_advertise_addr rand).getD 0 0).testBit 6 = true ∧
    ((send_advertise_addr rand).getD 0 0).testBit 7 = false ∧
    0x40 ≤ (send_advertise_addr rand).getD 0 0 ∧
    (send_advertise_addr rand).getD 0 0 ≤ 0x7F := by
  have hlt : rand 0 % 64 < 64 := Nat.mod_lt _ (by decide)
  have hb := low_bits_or_64 ⟨rand 0 % 64, hlt⟩
  simp only at hb
  have h0 : (send_advertise_addr rand).getD 0 0 = rand 0 % 64 ||| 64 := by
    rw [send_advertise_addr_eq, hb.1]
    rfl
  rw [h0]
  refine ⟨?_, hb.2.1, hb.2.2, ?_, ?_⟩
  · rw [send_advertise_addr_eq, hb.1]
  · rw [hb.1]; omega
  · rw [hb.1]; omega

set_option maxRecDepth 100000 in
/-- The text that `%02x` gives for a `char` is the address field described
above, for each of the 256 bit patterns. -/
theorem sprintf_02x_eq (char_signed : Bool) (b : Fin 256) :
    sprintf_02x char_signed b.val = address_field char_signed b.val := by
  revert b
  cases char_signed <;> decide

/-- C9 (code defect).  When `popen` gives no stream, `execute` skips the read
and then calls `pclose(NULL)`: `send_advertise` stops there, at the first
command or, when only the first command could be started, at the second, and
the commands after it are never issued.
When `popen` yields a stream for each command and each prints fewer than 256
bytes, `send_advertise` runs exactly three commands after those already run,
whatever they print: the set-random-address command, which is the text
`hcitool -i hci0 cmd 0x08 0x0005 ` followed by the six address bytes, each as
two hexadecimal digits and a blank (with `ffffff` before the digits where
`char` is signed and the byte is 0x80 or more), then `CMD_ADV`, then `CMD_EN`.
For the draws 255, 254, ..., 250 the address reads `7f fe fd fc fb fa`. -/
theorem send_advertise_commands (char_signed : Bool) (rand : Nat → Nat) (w : World) :
    send_advertise char_signed rand (World.start (fun _ => none) true false (fun _ => true))
      = .error .null_stream ∧
    send_advertise char_signed rand
        (World.start (fun k => if k = 0 then some "" else none) true false (fun _ => true))
      = .error .null_stream ∧
    ((∀ k, ∃ out, w.popen_out k = some out ∧ out.length < 256) →
      ∃ w1, send_advertise char_signed rand w = .ok w1 ∧
        w1.commands = w.commands ++
          ["hcitool -i hci0 cmd 0x08 0x0005 " ++
              two_hex_digits (64 + rand 0 % 64) ++ " " ++
              address_field char_signed (rand 1 % 256) ++ " " ++
              address_field char_signed (rand 2 % 256) ++ " " ++
              address_field char_signed (rand 3 % 256) ++ " " ++
              address_field char_signed (rand 4 % 256) ++ " " ++
              address_field char_signed (rand 5 % 256) ++ " ",
            CMD_ADV, CMD_EN]) ∧
    (∃ w1, send_advertise false (fun i => 255 - i) World.quiet = .ok w1 ∧
      w1.commands = ["hcitool -i hci0 cmd 0x08 0x0005 7f fe fd fc fb fa ",
        "hcitool -i hci0 cmd 0x08 0x0008 15 02 01 06 11 07 23 20 56 7c 05 cf 6e b4 c3 41 77 28 51 82 7e 1b",
        "hcitool -i hci0 cmd 0x08 0x000a 1"]) ∧
    (∃ w1, send_advertise true (fun i => 255 - i) World.quiet = .ok w1 ∧
      w1.commands.head? =
        some "hcitool -i hci0 cmd 0x08 0x0005 7f fffffffe fffffffd fffffffc fffffffb fffffffa ") := by
  refine ⟨rfl, rfl, ?_, ⟨_, rfl, rfl⟩, ⟨_, rfl, rfl⟩⟩
  intro hpopen
  have h1 := execute_eq (send_advertise_CMD_RA char_signed (send_advertise_addr rand)) 256
    w hpopen
  have h2 := execute_eq CMD_ADV 256
    { w with commands := w.commands ++
        [send_advertise_CMD_RA char_signed (send_advertise_addr rand)] } hpopen
  have h3 := execute_eq CMD_EN 256
    { w with commands := w.commands ++
        [send_advertise_CMD_RA char_signed (send_advertise_addr rand)] ++ [CMD_ADV] } hpopen
  refine ⟨{ w with commands := w.commands ++
      [send_advertise_CMD_RA char_signed (send_advertise_addr rand)] ++ [CMD_ADV] ++ [CMD_EN] },
    ?_, ?_⟩
  · simp only [send_advertise, h1, bind, Except.bind, h2, h3]
    rfl
  · have f0 : ∀ n, n < 64 → sprintf_02x char_signed (64 + n) = two_hex_digits (64 + n) := by
      intro n hn
      have h := sprintf_02x_eq char_signed ⟨64 + n, by omega⟩
      have hs : ¬ (char_signed = true ∧ 128 ≤ 64 + n) := by omega
      simpa [address_field, hs] using h
    have f : ∀ n, sprintf_02x char_signed (n % 256) = address_field char_signed (n % 256) :=
      fun n => sprintf_02x_eq char_signed ⟨n % 256, Nat.mod_lt _ (by decide)⟩
    simp [send_advertise_CMD_RA, send_advertise_addr_eq, String.append_assoc,
      f0 _ (Nat.mod_lt (rand 0) (by decide : 0 < 64)), f]

/-! ## Building the tree -/

/-- C10 (code defect).  A partial service is left behind: when the bus accepts
the service and the first characteristic and refuses the second (the SSID
characteristic), `create_wifi_services` unregisters the service interface
only; three characteristics and the descriptor stay registered, and the list
of services stays empty. -/
theorem create_wifi_services_leaves_children :
    ((create_wifi_services
        (World.start (fun _ => none) true false (fun k => k != 2))).registered.map
          (fun r => (r.1, r.2.1))
      = [("/service1/characteristic1", "org.bluez.GattCharacteristic1"),
         ("/service1/characteristic3", "org.bluez.GattCharacteristic1"),
         ("/service1/characteristic4", "org.bluez.GattCharacteristic1"),
         ("/service1/characteristic4/descriptor5", "org.bluez.GattDescriptor1")]) ∧
    (create_wifi_services
        (World.start (fun _ => none) true false (fun k => k != 2))).services = [] := by
  constructor <;> rfl

/-! ## Stubs and option parsing -/

/-- C16.  Notify stub: for every message, characteristic and state,
`chr_start_notify` and `chr_stop_notify` return the NotSupported error and
hand back the characteristic and the state exactly as they received them, so
no value or length changes and nothing is put on the bus. -/
theorem notify_not_supported (msg : DBusMessage) (chr : characteristic) (w : World) :
    chr_start_notify msg chr w =
      (some (.error "org.freedesktop.DBus.Error.NotSupported" "Not Supported"), chr, w) ∧
    chr_stop_notify msg chr w =
      (some (.error "org.freedesktop.DBus.Error.NotSupported" "Not Supported"), chr, w) :=
  ⟨rfl, rfl⟩

/-- C17.  Includes stub: for every service UUID, `service_get_includes` gives
the object-path array with exactly the two elements `/service3` and
`/service2`, in this order, and `service_get_primary` gives true; neither
reads the state of the tree. -/
theorem includes_and_primary_are_fixed (uuid : String) :
    service_get_includes uuid
      = (true, .array [.objectPath "/service3", .objectPath "/service2"]) ∧
    service_get_primary uuid = (true, .boolean true) :=
  ⟨rfl, rfl⟩

theorem parse_options_loop_unknown (entries : List (String × DBusValue))
    (hkeys : ∀ e ∈ entries, strcasecmp e.1 "device" ≠ 0) (device : Option String) :
    parse_options_loop (entries.map (fun e => DBusValue.dictEntry e.1 e.2)) device
      = (0, device) := by
  induction entries with
  | nil => rfl
  | cons e t ih =>
    have he : strcasecmp e.1 "device" ≠ 0 := hkeys e (List.mem_cons_self _ _)
    have ht : ∀ x ∈ t, strcasecmp x.1 "device" ≠ 0 :=
      fun x hx => hkeys x (List.mem_cons_of_mem _ hx)
    simp [parse_options_loop, dbus_message_iter_get_arg_type, DBusValue.argType,
      dbus_message_iter_recurse, dbus_message_iter_get_basic, he, ih ht]

/-- C18.  ReadValue ignores unknown options: when no key of the options
dictionary compares equal to `device` under `strcasecmp`, whatever the values
are, `chr_read_value` and `desc_read_value` return a method return whose one
argument is the array of the first `vlen` bytes of the attribute's `value`
field, and hand the attribute and the state back unchanged (libdbus can
allocate the reply).  For an attribute whose `value` holds the bytes `v` and
whose `vlen` is their number the reply carries exactly `v`; it is what Get of
"Value" gives. -/
theorem read_value_ignores_unknown_options (chr : characteristic) (desc : descriptor)
    (w : World) (entries : List (String × DBusValue)) (rest : List DBusValue)
    (hkeys : ∀ e ∈ entries, strcasecmp e.1 "device" ≠ 0) (hmem : w.nomem = false) :
    chr_read_value (.array (entries.map (fun e => DBusValue.dictEntry e.1 e.2)) :: rest) chr w
      = (some (.method_return
          [.array (((chr.value.getD []).take chr.vlen.toNat).map DBusValue.byte)]), chr, w) ∧
    desc_read_value (.array (entries.map (fun e => DBusValue.dictEntry e.1 e.2)) :: rest) desc w
      = (some (.method_return
          [.array (((desc.value.getD []).take desc.vlen.toNat).map DBusValue.byte)]), desc, w) ∧
    (∀ v : List Byte, chr.value = some v → chr.vlen = v.length →
      chr_read_value (.array (entries.map (fun e => DBusValue.dictEntry e.1 e.2)) :: rest) chr w
        = (some (.method_return [.array (v.map DBusValue.byte)]), chr, w)) ∧
    (∀ v : List Byte, desc.value = some v → desc.vlen = v.length →
      desc_read_value (.array (entries.map (fun e => DBusValue.dictEntry e.1 e.2)) :: rest)
          desc w
        = (some (.method_return [.array (v.map DBusValue.byte)]), desc, w)) ∧
    chr_read_value (.array (entries.map (fun e => DBusValue.dictEntry e.1 e.2)) :: rest) chr w
      = (some (.method_return [chr_get_value chr]), chr, w) ∧
    desc_read_value (.array (entries.map (fun e => DBusValue.dictEntry e.1 e.2)) :: rest) desc w
      = (some (.method_return [desc_get_value desc]), desc, w) := by
  have hp : parse_options
      (.array (entries.map (fun e => DBusValue.dictEntry e.1 e.2)) :: rest) = (0, none) := by
    simp [parse_options, dbus_message_iter_get_arg_type, DBusValue.argType,
      dbus_message_iter_recurse, parse_options_loop_unknown entries hkeys]
  have hc : chr_read_value
      (.array (entries.map (fun e => DBusValue.dictEntry e.1 e.2)) :: rest) chr w
      = (some (.method_return
          [.array (((chr.value.getD []).take chr.vlen.toNat).map DBusValue.byte)]), chr, w) := by
    simp [chr_read_value, dbus_message_iter_init, hp, dbus_message_new_method_return, hmem,
      DBusReply.append, chr_read, append_byte_array]
  have hd : desc_read_value
      (.array (entries.map (fun e => DBusValue.dictEntry e.1 e.2)) :: rest) desc w
      = (some (.method_return
          [.array (((desc.value.getD []).take desc.vlen.toNat).map DBusValue.byte)]), desc, w) := by
    simp only [desc_read_value, dbus_message_iter_init, hp, dbus_message_new_method_return, hmem,
      DBusReply.append, desc_read, append_byte_array]
    by_cases hz : desc.vlen = 0
    · simp [hz]
    · cases hv : desc.value with
      | none => simp [hz]
      | some v => simp [hz]
  refine ⟨hc, hd, ?_, ?_, ?_, ?_⟩
  · intro v hv hl
    rw [hc, hv, hl]
    simp
  · intro v hv hl
    rw [hd, hv, hl]
    simp
  · simp [chr_read_value, dbus_message_iter_init, hp, dbus_message_new_method_return, hmem,
      DBusReply.append, chr_get_value]
  · simp [desc_read_value, dbus_message_iter_init, hp, dbus_message_new_method_return, hmem,
      DBusReply.append, desc_get_value]

/-- The statement of C18 for options with the keys `mtu` (a string where a
number is expected) and `offset`, on the security characteristic, which holds
`[20]`, and on the configuration descriptor holding the two bytes `01 00`. -/
theorem read_value_ignores_unknown_options_witness :
    chr_read_value (.array ([("mtu", DBusValue.string "big"), ("offset", DBusValue.int32 0)].map
        (fun e => DBusValue.dictEntry e.1 e.2)) :: []) chr_security World.quiet
      = (some (.method_return [.array [.byte 20]]), chr_security, World.quiet) ∧
    desc_read_value (.array ([("mtu", DBusValue.string "big"), ("offset", DBusValue.int32 0)].map
        (fun e => DBusValue.dictEntry e.1 e.2)) :: [])
        { desc_config with value := some [1, 0], vlen := 2 } World.quiet
      = (some (.method_return [.array [.byte 1, .byte 0]]),
          { desc_config with value := some [1, 0], vlen := 2 }, World.quiet) :=
  ⟨(read_value_ignores_unknown_options chr_security
      { desc_config with value := some [1, 0], vlen := 2 } World.quiet
      [("mtu", DBusValue.string "big"), ("offset", DBusValue.int32 0)] []
      (by
        intro e he
        simp only [List.mem_cons, List.mem_singleton, List.not_mem_nil, or_false] at he
        rcases he with h | h <;> subst h <;> decide)
      rfl).1,
   (read_value_ignores_unknown_options chr_security
      { desc_config with value := some [1, 0], vlen := 2 } World.quiet
      [("mtu", DBusValue.string "big"), ("offset", DBusValue.int32 0)] []
      (by
        intro e he
        simp only [List.mem_cons, List.mem_singleton, List.not_mem_nil, or_false] at he
        rcases he with h | h <;> subst h <;> decide)
      rfl).2.1⟩

/-! ## Handshake and shutdown -/

theorem proxy_added_cb_other (proxy : GDBusProxy) (w : World)
    (h : proxy.interface ≠ GATT_MGR_IFACE) : proxy_added_cb proxy w = w := by
  simp [proxy_added_cb, g_dbus_proxy_get_interface, g_strcmp0, h]
  intro h1
  split at h1 <;> omega

/-- C19.  No manager, no advertising: while the main loop handles events in
which no proxy that appears has the interface `org.bluez.GattManager1`, and no
call was waiting at the start, the state never changes: `proxy_added_cb` sends
no RegisterApplication, so a reply finds no call whose callback
`register_app_reply` would be, `send_advertise` does not run and no command is
issued. -/
theorem no_manager_no_advertising (char_signed : Bool) (events : List Event) (w : World)
    (hnone : ∀ proxy, Event.proxy_added proxy ∈ events → proxy.interface ≠ GATT_MGR_IFACE)
    (hidle : w.method_calls = []) :
    g_main_loop_run char_signed events w = .ok w := by
  induction events with
  | nil => rfl
  | cons e t ih =>
    have ht : ∀ proxy, Event.proxy_added proxy ∈ t → proxy.interface ≠ GATT_MGR_IFACE :=
      fun proxy hp => hnone proxy (List.mem_cons_of_mem _ hp)
    cases e with
    | proxy_added proxy =>
      have hp := hnone proxy (List.mem_cons_self _ _)
      simp [g_main_loop_run, dispatch, proxy_added_cb_other proxy w hp, ih ht]
    | method_reply reply rand =>
      simp [g_main_loop_run, dispatch, hidle, ih ht]

/-- The statement of C19 for an adapter proxy, a stray reply and a device
proxy, from the start of the process. -/
theorem no_manager_no_advertising_witness :
    g_main_loop_run false
      [.proxy_added ⟨"/org/bluez/hci0", "org.bluez.Adapter1"⟩,
       .method_reply (.method_return []) (fun _ => 0),
       .proxy_added ⟨"/org/bluez/hci0/dev_00", "org.bluez.Device1"⟩] World.quiet
      = .ok World.quiet :=
  no_manager_no_advertising false _ World.quiet
    (by
      intro proxy hp
      simp only [List.mem_cons, List.mem_singleton, List.not_mem_nil, or_false,
        Event.proxy_added.injEq] at hp
      rcases hp with h | h | h
      · subst h; decide
      · exact absurd h (by simp)
      · subst h; decide)
    rfl

theorem execute_registered (cmdline : String) (w w1 : World) (out : String)
    (h : execute cmdline 256 w = .ok (out, w1)) :
    w1.registered = w.registered ∧ w1.popen_out = w.popen_out := by
  unfold execute at h
  split at h
  · exact absurd h (by simp)
  · split at h
    · exact absurd h (by simp)
    · simp only [Except.ok.injEq, Prod.mk.injEq] at h
      rw [← h.2]
      exact ⟨rfl, rfl⟩

theorem send_advertise_registered (char_signed : Bool) (rand : Nat → Nat) (w w1 : World)
    (h : send_advertise char_signed rand w = .ok w1) : w1.registered = w.registered := by
  unfold send_advertise at h
  simp only [bind, Except.bind, pure, Except.pure] at h
  split at h
  · exact absurd h (by simp)
  · rename_i r1 h1
    split at h
    · exact absurd h (by simp)
    · rename_i r2 h2
      split at h
      · exact absurd h (by simp)
      · rename_i r3 h3
        simp only [Except.ok.injEq] at h
        rw [← h, (execute_registered _ _ _ _ h3).1, (execute_registered _ _ _ _ h2).1,
          (execute_registered _ _ _ _ h1).1]

theorem dispatch_registered (char_signed : Bool) (e : Event) (w w1 : World)
    (h : dispatch char_signed e w = .ok w1) : w1.registered = w.registered := by
  cases e with
  | proxy_added proxy =>
    simp only [dispatch, Except.ok.injEq] at h
    rw [← h]
    simp only [proxy_added_cb, register_app, g_dbus_proxy_method_call]
    repeat' split
    all_goals rfl
  | method_reply reply rand =>
    simp only [dispatch] at h
    split at h
    · simp only [Except.ok.injEq] at h
      rw [← h]
    · rw [register_app_reply_eq] at h
      rw [send_advertise_registered _ _ _ _ h]

theorem g_main_loop_run_registered (char_signed : Bool) (events : List Event) :
    ∀ w w1 : World, g_main_loop_run char_signed events w = .ok w1 →
      w1.registered = w.registered := by
  induction events with
  | nil =>
    intro w w1 h
    simp only [g_main_loop_run, Except.ok.injEq] at h
    rw [h]
  | cons e t ih =>
    intro w w1 h
    simp only [g_main_loop_run] at h
    split at h
    · exact absurd h (by simp)
    · rename_i w2 h2
      rw [ih w2 w1 h, dispatch_registered _ _ _ _ h2]

/-- C20 (counterexample).  When every registration succeeded and the main loop
ends at once, `main` returns 0 with the service, the four characteristics and
the descriptor still registered: the shutdown sequence unregistered nothing. -/
theorem main_returns_with_tree_registered :
    ∃ w1, main 1 0 false [] World.quiet = .ok (0, w1) ∧
      w1.registered.map (fun r => r.1)
        = ["/service1", "/service1/characteristic1", "/service1/characteristic2",
           "/service1/characteristic3", "/service1/characteristic4",
           "/service1/characteristic4/descriptor5"] := by
  refine ⟨_, rfl, ?_⟩
  rfl

/-- C20 (amended).  The shutdown sequence that follows the main loop makes no
unregister call: when `main` returns after the loop, the interfaces registered
on the connection are exactly those `create_wifi_services` left registered at
startup; only the list of service paths has been released. -/
theorem main_shutdown_unregisters_nothing (signal : Nat) (errno : Int) (char_signed : Bool)
    (events : List Event) (w w1 : World) (status : Int) (hsignal : signal ≠ 0)
    (hret : main signal errno char_signed events w = .ok (status, w1)) :
    status = 0 ∧ w1.registered = (create_wifi_services w).registered ∧ w1.services = [] := by
  simp only [main, hsignal, if_false] at hret
  split at hret
  · exact absurd hret (by simp)
  · rename_i w2 h2
    simp only [Except.ok.injEq, Prod.mk.injEq] at hret
    rw [← hret.1, ← hret.2]
    refine ⟨rfl, ?_, rfl⟩
    show w2.registered = (create_wifi_services w).registered
    exact g_main_loop_run_registered char_signed events _ w2 h2

/-- The statement of C20 (amended) for a run in which the manager appears and
RegisterApplication succeeds before the loop ends. -/
theorem main_shutdown_unregisters_nothing_witness :
    (0 : Int) = 0 ∧
    (main_shutdown ((send_advertise false (fun _ => 0)
        (create_wifi_services World.quiet)).toOption.getD World.quiet)).registered
      = (create_wifi_services World.quiet).registered ∧
    (main_shutdown ((send_advertise false (fun _ => 0)
        (create_wifi_services World.quiet)).toOption.getD World.quiet)).services = [] :=
  main_shutdown_unregisters_nothing 1 0 false
    [.proxy_added ⟨"/org/bluez", "org.bluez.GattManager1"⟩,
     .method_reply (.method_return []) (fun _ => 0)]
    World.quiet _ 0 (by decide) rfl

/-! ## Registration of a characteristic -/

/-- C11.  Failure handling of `register_characteristic`.  (1) When the bus
refuses the characteristic interface, the result is FALSE, exactly one
registration call was made (none for the descriptor) and nothing was added.
(2) When the characteristic is accepted and the descriptor refused, the result
is FALSE and the characteristic's path is no longer registered; what remains
was registered before.  (3) When the result is TRUE, the characteristic's path
is registered and, if a descriptor was asked for, so is the descriptor's. -/
theorem register_characteristic_failure_handling (chr_uuid : String)
    (value : Option (List Byte)) (vlen : Int) (props : List String) (desc_uuid : Option String)
    (desc_props : List String) (service_path : String) (w : World) :
    (w.register_ok w.register_calls = false →
      (register_characteristic chr_uuid value vlen props desc_uuid desc_props service_path w).1
        = false ∧
      (register_characteristic chr_uuid value vlen props desc_uuid desc_props service_path
        w).2.register_calls = w.register_calls + 1 ∧
      (register_characteristic chr_uuid value vlen props desc_uuid desc_props service_path
        w).2.registered = w.registered) ∧
    (w.register_ok w.register_calls = true → desc_uuid ≠ none →
      w.register_ok (w.register_calls + 1) = false →
      (register_characteristic chr_uuid value vlen props desc_uuid desc_props service_path w).1
        = false ∧
      (∀ e ∈ (register_characteristic chr_uuid value vlen props desc_uuid desc_props
          service_path w).2.registered,
        ¬ (e.1 = service_path ++ "/characteristic" ++ toString w.chr_id ∧
            e.2.1 = GATT_CHR_IFACE) ∧ e ∈ w.registered)) ∧
    ((register_characteristic chr_uuid value vlen props desc_uuid desc_props service_path w).1
        = true →
      (∃ data, (service_path ++ "/characteristic" ++ toString w.chr_id, GATT_CHR_IFACE, data)
        ∈ (register_characteristic chr_uuid value vlen props desc_uuid desc_props service_path
            w).2.registered) ∧
      (desc_uuid ≠ none →
        ∃ data, (service_path ++ "/characteristic" ++ toString w.chr_id ++ "/descriptor" ++
            toString (int_incr w.chr_id), GATT_DESCRIPTOR_IFACE, data)
          ∈ (register_characteristic chr_uuid value vlen props desc_uuid desc_props service_path
              w).2.registered)) := by
  refine ⟨?_, ?_, ?_⟩
  · intro h1
    simp [register_characteristic, g_dbus_register_interface, h1]
  · intro h1 hd h2
    cases desc_uuid with
    | none => exact absurd rfl hd
    | some u =>
      simp [register_characteristic, g_dbus_register_interface, g_dbus_unregister_interface,
        h1, h2]
      intro a b c hmem hne
      exact ⟨fun ha => hne.resolve_left (not_not.mpr ha), hmem⟩
  · intro ht
    cases h1 : w.register_ok w.register_calls with
    | false => simp [register_characteristic, g_dbus_register_interface, h1] at ht
    | true =>
      cases desc_uuid with
      | none =>
        simp [register_characteristic, g_dbus_register_interface, h1]
      | some u =>
        cases h2 : w.register_ok (w.register_calls + 1) with
        | false =>
          simp [register_characteristic, g_dbus_register_interface,
            g_dbus_unregister_interface, h1, h2] at ht
        | true =>
          simp [register_characteristic, g_dbus_register_interface, h1, h2]
          exact ⟨⟨_, Or.inr (Or.inl rfl)⟩, ⟨_, Or.inr (Or.inr rfl)⟩⟩

/-- The three cases of C11 for the notify characteristic and its descriptor
under `/service1`: on a bus that refuses everything, on one that accepts the
characteristic only, and on one that accepts both. -/
theorem register_characteristic_failure_handling_witness :
    ((register_characteristic CONFIG_NOTIFY_UUID (some [20]) 1 chr_props (some CONFIG_UUID)
        desc_props "/service1" World.refusing).1 = false ∧
      (register_characteristic CONFIG_NOTIFY_UUID (some [20]) 1 chr_props (some CONFIG_UUID)
        desc_props "/service1" World.refusing).2.register_calls = World.refusing.register_calls + 1 ∧
      (register_characteristic CONFIG_NOTIFY_UUID (some [20]) 1 chr_props (some CONFIG_UUID)
        desc_props "/service1" World.refusing).2.registered = World.refusing.registered) ∧
    ((register_characteristic CONFIG_NOTIFY_UUID (some [20]) 1 chr_props (some CONFIG_UUID)
        desc_props "/service1" World.accepting_first).1 = false ∧
      (∀ e ∈ (register_characteristic CONFIG_NOTIFY_UUID (some [20]) 1 chr_props (some CONFIG_UUID)
        desc_props "/service1" World.accepting_first).2.registered,
        ¬ (e.1 = "/service1" ++ "/characteristic" ++ toString World.accepting_first.chr_id ∧
            e.2.1 = GATT_CHR_IFACE) ∧ e ∈ World.accepting_first.registered)) ∧
    ((∃ data, ("/service1" ++ "/characteristic" ++ toString World.quiet.chr_id, GATT_CHR_IFACE,
          data) ∈ (register_characteristic CONFIG_NOTIFY_UUID (some [20]) 1 chr_props (some CONFIG_UUID)
        desc_props "/service1" World.quiet).2.registered) ∧
      (∃ data, ("/service1" ++ "/characteristic" ++ toString World.quiet.chr_id ++
            "/descriptor" ++ toString (int_incr World.quiet.chr_id), GATT_DESCRIPTOR_IFACE, data)
          ∈ (register_characteristic CONFIG_NOTIFY_UUID (some [20]) 1 chr_props (some CONFIG_UUID)
        desc_props "/service1" World.quiet).2.registered)) :=
  ⟨(register_characteristic_failure_handling CONFIG_NOTIFY_UUID (some [20]) 1 chr_props
      (some CONFIG_UUID) desc_props "/service1" World.refusing).1 rfl,
   (register_characteristic_failure_handling CONFIG_NOTIFY_UUID (some [20]) 1 chr_props
      (some CONFIG_UUID) desc_props "/service1" World.accepting_first).2.1 rfl (by simp) rfl,
   ⟨((register_characteristic_failure_handling CONFIG_NOTIFY_UUID (some [20]) 1 chr_props
      (some CONFIG_UUID) desc_props "/service1" World.quiet).2.2 rfl).1,
    ((register_characteristic_failure_handling CONFIG_NOTIFY_UUID (some [20]) 1 chr_props
      (some CONFIG_UUID) desc_props "/service1" World.quiet).2.2 rfl).2 (by simp)⟩⟩

/-! ## Reading before any write -/

theorem register_characteristic_registered (chr_uuid : String) (value : Option (List Byte))
    (vlen : Int) (props : List String) (desc_uuid : Option String) (desc_props : List String)
    (service_path : String) (w : World) :
    ∀ e ∈ (register_characteristic chr_uuid value vlen props desc_uuid desc_props
        service_path w).2.registered,
      e ∈ w.registered ∨
      (∃ c : characteristic, e.2.2 = .chr c ∧ c.value = g_memdup value vlen ∧ c.vlen = vlen) ∨
      (∃ d : descriptor, e.2.2 = .desc d ∧ d.value = none ∧ d.vlen = 0) := by
  intro e he
  cases h1 : w.register_ok w.register_calls with
  | false =>
    simp [register_characteristic, g_dbus_register_interface, h1] at he
    exact Or.inl he
  | true =>
    cases desc_uuid with
    | none =>
      simp [register_characteristic, g_dbus_register_interface, h1] at he
      rcases he with he | he
      · exact Or.inl he
      · exact Or.inr (Or.inl ⟨_, by rw [he], rfl, rfl⟩)
    | some u =>
      cases h2 : w.register_ok (w.register_calls + 1) with
      | false =>
        simp [register_characteristic, g_dbus_register_interface,
          g_dbus_unregister_interface, h1, h2] at he
        exact Or.inl he.1
      | true =>
        simp [register_characteristic, g_dbus_register_interface, h1, h2] at he
        rcases he with he | he | he
        · exact Or.inl he
        · exact Or.inr (Or.inl ⟨_, by rw [he], rfl, rfl⟩)
        · exact Or.inr (Or.inr ⟨_, by rw [he], rfl, rfl⟩)

theorem register_characteristic_as_created (chr_uuid : String) (props : List String)
    (desc_uuid : Option String) (desc_props : List String) (service_path : String) (w : World)
    (h : ∀ e ∈ w.registered, e.2.2.as_created) :
    ∀ e ∈ (register_characteristic chr_uuid (some [20]) 1 props desc_uuid desc_props
        service_path w).2.registered, e.2.2.as_created := by
  intro e he
  have hm : g_memdup (some [20]) 1 = some [20] := by decide
  rcases register_characteristic_registered _ _ _ _ _ _ _ _ e he with h0 | ⟨c, hc, hv, hl⟩ |
    ⟨d, hd, hv, hl⟩
  · exact h e h0
  · rw [hc]; exact ⟨by rw [hv, hm], hl⟩
  · rw [hd]; exact ⟨hv, hl⟩

theorem register_service_registered (uuid : String) (w : World) :
    ∀ e ∈ (register_service uuid w).2.registered,
      e ∈ w.registered ∨ e.2.2 = .service uuid := by
  intro e he
  cases h1 : w.register_ok w.register_calls with
  | false =>
    simp [register_service, g_dbus_register_interface, h1] at he
    exact Or.inl he
  | true =>
    simp [register_service, g_dbus_register_interface, h1] at he
    rcases he with he | he
    · exact Or.inl he
    · exact Or.inr (by rw [he])

theorem create_wifi_services_as_created (w : World)
    (h : ∀ e ∈ w.registered, e.2.2.as_created) :
    ∀ e ∈ (create_wifi_services w).registered, e.2.2.as_created := by
  have h0 : ∀ e ∈ (register_service WIFI_SERVICES_UUID w).2.registered, e.2.2.as_created := by
    intro e he
    rcases register_service_registered _ _ e he with h1 | h1
    · exact h e h1
    · rw [h1]; trivial
  unfold create_wifi_services
  generalize register_service WIFI_SERVICES_UUID w = r at h0
  obtain ⟨sp, w0⟩ := r
  cases sp with
  | none => exact h0
  | some service_path =>
    have h1 := register_characteristic_as_created SECURITY_UUID chr_props none desc_props
      service_path w0 h0
    have h2 := register_characteristic_as_created SSID_UUID chr_props none desc_props
      service_path _ h1
    have h3 := register_characteristic_as_created PASSWORD_UUID chr_props none desc_props
      service_path _ h2
    have h4 := register_characteristic_as_created CONFIG_NOTIFY_UUID chr_props
      (some CONFIG_UUID) desc_props service_path _ h3
    simp only
    split
    · intro e he
      simp only [g_dbus_unregister_interface] at he
      exact h4 e (List.mem_of_mem_filter he)
    · exact h4

/-- C13 (counterexample).  The security characteristic of the tree built by
`create_wifi_services` has never been written, and both Get of "Value" and
ReadValue return the byte 20, not the empty sequence. -/
theorem never_written_characteristic_reads_20 :
    ("/service1/characteristic1", GATT_CHR_IFACE, UserData.chr chr_security)
      ∈ (create_wifi_services World.quiet).registered ∧
    chr_get_value chr_security = .array [.byte 20] ∧
    (chr_read_value [.array []] chr_security (create_wifi_services World.quiet)).1
      = some (.method_return [.array [.byte 20]]) := by
  refine ⟨by decide, rfl, ?_⟩
  simp [chr_read_value, dbus_message_iter_init, parse_options,
    dbus_message_iter_get_arg_type, DBusValue.argType, dbus_message_iter_recurse,
    parse_options_loop, dbus_message_new_method_return, DBusReply.append, chr_read,
    append_byte_array, chr_security]
  rfl

/-- C13 (amended).  In the tree `create_wifi_services` builds from the start
of the process, whatever the bus answers, a read before any write is not an
error: for a descriptor, Get of "Value" and a ReadValue whose options parse
return the empty byte sequence; for a characteristic they return the one byte
20 the characteristic was created with (libdbus can allocate the reply). -/
theorem never_written_read (popen_out : Nat → Option String) (fopen_ok nomem : Bool)
    (register_ok : Nat → Bool) (path interface : String) (data : UserData)
    (msg : DBusMessage) (w : World)
    (hreg : (path, interface, data)
      ∈ (create_wifi_services (World.start popen_out fopen_ok nomem register_ok)).registered)
    (hopts : (parse_options msg).1 = 0) (hmem : w.nomem = false) :
    match data with
    | .service _ => True
    | .chr c => chr_get_value c = .array [.byte 20] ∧
        chr_read_value msg c w = (some (.method_return [.array [.byte 20]]), c, w)
    | .desc d => desc_get_value d = .array [] ∧
        desc_read_value msg d w = (some (.method_return [.array []]), d, w) := by
  have hne : msg ≠ [] := by
    intro h
    subst h
    simp [parse_options, dbus_message_iter_get_arg_type, DBUS_TYPE_INVALID,
      DBUS_TYPE_ARRAY, EINVAL] at hopts
  have hinit : (!msg.isEmpty) = true := by
    cases msg with
    | nil => exact absurd rfl hne
    | cons a t => rfl
  have hc := create_wifi_services_as_created
    (World.start popen_out fopen_ok nomem register_ok) (by intro e he; cases he) _ hreg
  cases data with
  | service u => trivial
  | chr c =>
    obtain ⟨hv, hl⟩ := hc
    have hget : chr_get_value c = .array [.byte 20] := by
      simp [chr_get_value, chr_read, append_byte_array, hv, hl]
    refine ⟨hget, ?_⟩
    simp only [chr_get_value] at hget
    simp [chr_read_value, dbus_message_iter_init, hinit, hopts,
      dbus_message_new_method_return, hmem, DBusReply.append, hget]
  | desc d =>
    obtain ⟨hv, hl⟩ := hc
    have hget : desc_get_value d = .array [] := by
      simp [desc_get_value, desc_read, hv, hl]
    refine ⟨hget, ?_⟩
    simp only [desc_get_value] at hget
    simp [desc_read_value, dbus_message_iter_init, hinit, hopts,
      dbus_message_new_method_return, hmem, DBusReply.append, hget]

/-- The statement of C13 (amended) for the configuration descriptor of the
tree built when every registration succeeds. -/
theorem never_written_read_witness :
    desc_get_value desc_config = .array [] ∧
    desc_read_value [.array []] desc_config World.quiet
      = (some (.method_return [.array []]), desc_config, World.quiet) :=
  never_written_read (fun _ => some "OK\n") true false (fun _ => true)
    "/service1/characteristic4/descriptor5" GATT_DESCRIPTOR_IFACE (.desc desc_config)
    [.array []] World.quiet (by decide)
    (by
      simp [parse_options, dbus_message_iter_get_arg_type, DBusValue.argType,
        dbus_message_iter_recurse, parse_options_loop])
    rfl

/-! ## Credential capture -/

theorem takeWhile_nonzero (s after : List Byte) (hs : ∀ b ∈ s, b ≠ 0)
    (hterm : after.head? = some 0) :
    (s ++ after).takeWhile (fun b => decide (b ≠ 0)) = s ∧
    (s ++ after).all (fun b => decide (b ≠ 0)) = false := by
  induction s with
  | nil =>
    cases after with
    | nil => simp at hterm
    | cons a t =>
      simp only [List.head?_cons, Option.some.injEq] at hterm
      subst hterm
      simp
  | cons b t ih =>
    have hb : b ≠ 0 := hs b (List.mem_cons_self _ _)
    have ht := ih (fun x hx => hs x (List.mem_cons_of_mem _ hx))
    have hd : decide (b ≠ 0) = true := by simp [hb]
    simp only [List.cons_append, List.takeWhile_cons, List.all_cons, hd, ht.1, ht.2, if_true,
      Bool.true_and, and_self]

theorem strcpy_ok (s after : List Byte) (hs : ∀ b ∈ s, b ≠ 0)
    (hterm : after.head? = some 0) : strcpy (some s) after = .ok (bytes_text s) := by
  have h := takeWhile_nonzero s after hs hterm
  simp only [strcpy, h.2, h.1, bytes_text]
  rfl

theorem WIFI_CONFIG_FORMAT_length (ssid psk : String) :
    (WIFI_CONFIG_FORMAT ssid psk).data.length = 88 + ssid.data.length + psk.data.length := by
  simp only [WIFI_CONFIG_FORMAT, String.data_append, List.length_append]
  simp only [List.length_cons, List.length_nil]
  omega

theorem snprintf_fits (size : Nat) (s : String) (h : s.data.length ≤ size - 1) :
    snprintf size s = s := by
  simp [snprintf, List.take_of_length_le h]

theorem save_wifi_config_fits (name pwd : String) (w : World) (hfopen : w.fopen_ok = true)
    (hlen : name.data.length + pwd.data.length ≤ 167) :
    save_wifi_config name pwd w = (false, { w with conf := some (WIFI_CONFIG_FORMAT name pwd) }) := by
  have h := WIFI_CONFIG_FORMAT_length name pwd
  simp [save_wifi_config, hfopen, snprintf_fits 256 (WIFI_CONFIG_FORMAT name pwd) (by omega)]

theorem chr_write_value_ssid (s after : List Byte) (rest : List DBusValue) (c : characteristic)
    (value0 : Option (List Byte)) (len0 : Int) (w : World) (huuid : c.uuid = SSID_UUID)
    (hs : s ≠ []) (hnz : ∀ b ∈ s, b ≠ 0) (hterm : after.head? = some 0) :
    chr_write_value (.array (s.map DBusValue.byte) :: rest) after c value0 len0 w =
      .ok (dbus_message_new_method_return w, c, { w with wifi_ssid := bytes_text s }) := by
  have hne : SSID_UUID ≠ PASSWORD_UUID := by decide
  simp [chr_write_value, dbus_message_iter_init, parse_value_bytes, parse_options_bytes, hs,
    huuid, strcpy_ok s after hnz hterm, hne.symm, bind, Except.bind, pure, Except.pure,
    dbus_message_new_method_return]

theorem bytes_text_length (bytes : List Byte) : (bytes_text bytes).data.length = bytes.length := by
  simp [bytes_text]

set_option maxRecDepth 100000 in
/-- C14 (code defect).  `save_wifi_config` formats the whole file into
`body[256]` with `snprintf`.  An SSID of 200 bytes and the password `s3cr3t!`
are NUL-free texts of at most 255 bytes; both writes reply success, and the
file written is cut after 255 characters, inside the SSID: it holds neither
the password nor the end of the boilerplate. -/
theorem long_credentials_truncate_the_file :
    ∃ w1 w2,
      chr_write_value [.array ((List.replicate 200 (97 : Byte)).map DBusValue.byte), .array []]
        (body_after
          [.array ((List.replicate 200 (97 : Byte)).map DBusValue.byte), .array []])
        chr_ssid none 0 World.quiet = .ok (some (.method_return []), chr_ssid, w1) ∧
      chr_write_value [.array ((text_bytes "s3cr3t!").map DBusValue.byte), .array []]
        (body_after [.array ((text_bytes "s3cr3t!").map DBusValue.byte), .array []])
        chr_password none 0 w1 = .ok (some (.method_return []), chr_password, w2) ∧
      w2.conf = some
        ("ctrl_interface=/var/run/wpa_supplicant\nap_scan=1\n\nnetwork=\x7b\nssid=\"" ++
          String.mk (List.replicate 189 (Char.ofNat 97))) := by
  refine ⟨_, _, rfl, rfl, ?_⟩
  rfl

/-- C15 (code defect).  A WriteValue whose payload is the empty byte array
parses, and on the SSID characteristic as on the password characteristic the
handler then reaches `strcpy` with the NULL pointer the empty array yields: no
reply is returned, and on the password write `save_wifi_config` is not
reached. -/
theorem chr_write_value_empty_payload_faults :
    chr_write_value [.array [], .array []] [] chr_ssid none 0 World.quiet
      = .error .null_source ∧
    chr_write_value [.array [], .array []] [] chr_password none 0 World.quiet
      = .error .null_source :=
  ⟨rfl, rfl⟩

/-! ## Node paths -/

theorem digitChar_lt_ten (k : Fin 10) :
    (Nat.digitChar k.val).isDigit = true ∧ (Nat.digitChar k.val).toNat - 48 = k.val := by
  revert k
  decide

theorem toDigitsCore_append (fuel : Nat) : ∀ (n : Nat) (ds : List Char),
    Nat.toDigitsCore 10 fuel n ds = Nat.toDigitsCore 10 fuel n [] ++ ds := by
  induction fuel with
  | zero => intro n ds; simp [Nat.toDigitsCore]
  | succ f ih =>
    intro n ds
    simp only [Nat.toDigitsCore]
    split
    · simp
    · rw [ih (n / 10) (Nat.digitChar (n % 10) :: ds), ih (n / 10) [Nat.digitChar (n % 10)]]
      simp

theorem toDigitsCore_value (fuel : Nat) : ∀ n : Nat, n < fuel →
    digits_value (Nat.toDigitsCore 10 fuel n []) = n ∧
    (∀ c ∈ Nat.toDigitsCore 10 fuel n [], c.isDigit = true) ∧
    Nat.toDigitsCore 10 fuel n [] ≠ [] := by
  induction fuel with
  | zero => intro n h; omega
  | succ f ih =>
    intro n h
    have hd := digitChar_lt_ten ⟨n % 10, Nat.mod_lt _ (by decide)⟩
    simp only at hd
    simp only [Nat.toDigitsCore]
    split
    · rename_i h0
      refine ⟨?_, ?_, by simp⟩
      · simp only [digits_value, List.foldl_cons, List.foldl_nil]
        rw [hd.2]; omega
      · intro c hc
        simp only [List.mem_singleton] at hc
        rw [hc]; exact hd.1
    · rename_i h0
      have hlt : n / 10 < f := by omega
      obtain ⟨hv, hall, hne⟩ := ih (n / 10) hlt
      rw [toDigitsCore_append]
      refine ⟨?_, ?_, by simp [hne]⟩
      · unfold digits_value at hv ⊢
        rw [List.foldl_append, hv]
        simp only [List.foldl_cons, List.foldl_nil]
        rw [hd.2]; omega
      · intro c hc
        simp only [List.mem_append, List.mem_singleton] at hc
        rcases hc with hc | hc
        · exact hall c hc
        · rw [hc]; exact hd.1

theorem toDigits_facts (n : Nat) :
    digits_value (Nat.toDigits 10 n) = n ∧ (∀ c ∈ Nat.toDigits 10 n, c.isDigit = true) ∧
    Nat.toDigits 10 n ≠ [] :=
  toDigitsCore_value (n + 1) n (Nat.lt_succ_self n)

theorem int_toString_data (n : Int) :
    (toString n).data = match n with
      | Int.ofNat m => Nat.toDigits 10 m
      | Int.negSucc m => Char.ofNat 45 :: Nat.toDigits 10 (m + 1) := by
  cases n <;> rfl

theorem int_toString_chars (n : Int) : ∀ c ∈ (toString n).data, is_number_char c = true := by
  intro c hc
  rw [int_toString_data] at hc
  cases n with
  | ofNat m =>
    simp only at hc
    simp [is_number_char, (toDigits_facts m).2.1 c hc]
  | negSucc m =>
    simp only [List.mem_cons] at hc
    rcases hc with hc | hc
    · rw [hc]; decide
    · simp [is_number_char, (toDigits_facts (m + 1)).2.1 c hc]

theorem int_toString_injective (a b : Int) (h : (toString a).data = (toString b).data) :
    a = b := by
  rw [int_toString_data, int_toString_data] at h
  cases a with
  | ofNat m =>
    cases b with
    | ofNat k =>
      simp only at h
      have := congrArg digits_value h
      rw [(toDigits_facts m).1, (toDigits_facts k).1] at this
      rw [this]
    | negSucc k =>
      simp only at h
      exfalso
      have hm := toDigits_facts m
      rw [h] at hm
      have := hm.2.1 (Char.ofNat 45) (List.mem_cons_self _ _)
      exact absurd this (by decide)
  | negSucc m =>
    cases b with
    | ofNat k =>
      simp only at h
      exfalso
      have hk := toDigits_facts k
      rw [← h] at hk
      have := hk.2.1 (Char.ofNat 45) (List.mem_cons_self _ _)
      exact absurd this (by decide)
    | negSucc k =>
      simp only [List.cons.injEq, true_and] at h
      have := congrArg digits_value h
      rw [(toDigits_facts (m + 1)).1, (toDigits_facts (k + 1)).1] at this
      have hmk : m = k := by omega
      rw [hmk]

theorem append_cons_unique (p : Char → Bool) : ∀ (A1 A2 B1 B2 : List Char) (a1 a2 : Char),
    p a1 = false → p a2 = false → (∀ c ∈ B1, p c = true) → (∀ c ∈ B2, p c = true) →
    A1 ++ a1 :: B1 = A2 ++ a2 :: B2 → A1 = A2 ∧ a1 = a2 ∧ B1 = B2 := by
  intro A1
  induction A1 with
  | nil =>
    intro A2 B1 B2 a1 a2 h1 h2 hB1 hB2 h
    cases A2 with
    | nil =>
      simp only [List.nil_append, List.cons.injEq] at h
      exact ⟨rfl, h.1, h.2⟩
    | cons x t =>
      simp only [List.nil_append, List.cons_append, List.cons.injEq] at h
      have hmem : a2 ∈ B1 := by rw [h.2]; simp
      have := hB1 a2 hmem
      rw [h2] at this
      exact absurd this (by decide)
  | cons x t ih =>
    intro A2 B1 B2 a1 a2 h1 h2 hB1 hB2 h
    cases A2 with
    | nil =>
      simp only [List.nil_append, List.cons_append, List.cons.injEq] at h
      have hmem : a1 ∈ B2 := by rw [← h.2]; simp
      have := hB2 a1 hmem
      rw [h1] at this
      exact absurd this (by decide)
    | cons y t2 =>
      simp only [List.cons_append, List.cons.injEq] at h
      obtain ⟨hA, ha, hB⟩ := ih t2 B1 B2 a1 a2 h1 h2 hB1 hB2 h.2
      exact ⟨by rw [h.1, hA], ha, hB⟩

theorem number_char_not_slash (c : Char) (h : is_number_char c = true) :
    (c != Char.ofNat 47) = true := by
  by_cases hc : c = Char.ofNat 47
  · rw [hc] at h; exact absurd h (by decide)
  · simpa using hc

theorem render_data (p : NodePath) :
    p.render.data = p.parent.data ++ Char.ofNat 47 :: (p.kind.name.data ++ (toString p.id).data) := by
  simp [NodePath.render, String.data_append]

theorem kind_name_no_slash (k : NodeKind) : ∀ c ∈ k.name.data, (c != Char.ofNat 47) = true := by
  cases k <;> decide

theorem render_injective (p q : NodePath) (h : p.render = q.render) : p = q := by
  have hd := congrArg String.data h
  rw [render_data, render_data] at hd
  have hB : ∀ r : NodePath, ∀ c ∈ r.kind.name.data ++ (toString r.id).data,
      (c != Char.ofNat 47) = true := by
    intro r c hc
    rcases List.mem_append.mp hc with hc | hc
    · exact kind_name_no_slash _ c hc
    · exact number_char_not_slash c (int_toString_chars _ c hc)
  obtain ⟨hpar, -, hrest⟩ := append_cons_unique (fun c => c != Char.ofNat 47) _ _ _ _ _ _
    (by decide) (by decide) (hB p) (hB q) hd
  have hparent : p.parent = q.parent := String.ext hpar
  have hkid : p.kind = q.kind ∧ p.id = q.id := by
    cases hk1 : p.kind <;> cases hk2 : q.kind <;> rw [hk1, hk2] at hrest
    all_goals first
      | exact ⟨rfl, int_toString_injective _ _ (List.append_cancel_left hrest)⟩
      | (exfalso
         simp [NodeKind.name] at hrest)
  obtain ⟨hk, hi⟩ := hkid
  cases p; cases q
  simp only at hparent hk hi
  rw [hparent, hk, hi]

theorem counter_ids_append (b : Bool) (nodes : List NodePath) (x : NodePath) :
    counter_ids b (nodes ++ [x]) =
      counter_ids b nodes ++ (if (decide (x.kind = .service) == b) = true then [x.id] else []) := by
  simp only [counter_ids, List.filter_append, List.map_append]
  by_cases h : (decide (x.kind = .service) == b) = true
  · simp [List.filter, h]
  · simp [List.filter, h]

theorem mem_counter_ids (b : Bool) (nodes : List NodePath) (i : Int)
    (h : i ∈ counter_ids b nodes) :
    ∃ q ∈ nodes, q.id = i ∧ (decide (q.kind = .service) == b) = true := by
  simp only [counter_ids, List.mem_map, List.mem_filter] at h
  obtain ⟨q, ⟨hq, hb⟩, hi⟩ := h
  exact ⟨q, hq, hi, hb⟩

theorem described_push_service (paths : List String) (sid cid : Int) (nodes : List NodePath)
    (parent : String) (h : paths_described paths sid cid nodes) :
    paths_described (paths ++ [NodePath.render ⟨parent, .service, sid⟩]) (sid + 1) cid
      (nodes ++ [⟨parent, .service, sid⟩]) := by
  obtain ⟨hp, hs, hc, hps, hpc, hnd⟩ := h
  refine ⟨by simp [hp], ?_, ?_, ?_, ?_, ?_⟩
  · intro q hq hk
    rcases List.mem_append.mp hq with hq | hq
    · have := hs q hq hk; omega
    · simp only [List.mem_singleton] at hq
      rw [hq]; simp
  · intro q hq hk
    rcases List.mem_append.mp hq with hq | hq
    · exact hc q hq hk
    · simp only [List.mem_singleton] at hq
      rw [hq] at hk; exact absurd rfl hk
  · rw [counter_ids_append]
    simp only [decide_True, beq_self_eq_true, if_true]
    rw [List.pairwise_append]
    refine ⟨hps, by simp, ?_⟩
    intro a ha b hb
    simp only [List.mem_singleton] at hb
    obtain ⟨q, hq, hi, hkb⟩ := mem_counter_ids _ _ _ ha
    have hk : q.kind = .service := by simpa using hkb
    have := hs q hq hk
    rw [hb, ← hi]; exact this
  · rw [counter_ids_append]
    simpa using hpc
  · rw [List.nodup_append]
    refine ⟨hnd, by simp, ?_⟩
    intro a ha hb
    simp only [List.mem_singleton] at hb
    have := hs a ha (by rw [hb])
    rw [hb] at this
    simp at this

theorem described_push_other (paths : List String) (sid cid : Int) (nodes : List NodePath)
    (parent : String) (k : NodeKind) (hk : k ≠ .service)
    (h : paths_described paths sid cid nodes) :
    paths_described (paths ++ [NodePath.render ⟨parent, k, cid⟩]) sid (cid + 1)
      (nodes ++ [⟨parent, k, cid⟩]) := by
  obtain ⟨hp, hs, hc, hps, hpc, hnd⟩ := h
  refine ⟨by simp [hp], ?_, ?_, ?_, ?_, ?_⟩
  · intro q hq hqk
    rcases List.mem_append.mp hq with hq | hq
    · exact hs q hq hqk
    · simp only [List.mem_singleton] at hq
      rw [hq] at hqk; exact absurd hqk hk
  · intro q hq hqk
    rcases List.mem_append.mp hq with hq | hq
    · have := hc q hq hqk; omega
    · simp only [List.mem_singleton] at hq
      rw [hq]; simp
  · rw [counter_ids_append]
    simpa [hk] using hps
  · rw [counter_ids_append]
    simp only [hk, decide_False, beq_self_eq_true, if_true]
    rw [List.pairwise_append]
    refine ⟨hpc, by simp, ?_⟩
    intro a ha b hb
    simp only [List.mem_singleton] at hb
    obtain ⟨q, hq, hi, hkb⟩ := mem_counter_ids _ _ _ ha
    have hqk : q.kind ≠ .service := by simpa using hkb
    have := hc q hq hqk
    rw [hb, ← hi]; exact this
  · rw [List.nodup_append]
    refine ⟨hnd, by simp, ?_⟩
    intro a ha hb
    simp only [List.mem_singleton] at hb
    have := hc a ha (by rw [hb]; exact hk)
    rw [hb] at this
    simp at this

theorem int_incr_of_lt (n : Int) (h : n < 2147483647) : int_incr n = n + 1 := by
  have : n ≠ 2147483647 := by omega
  simp [int_incr, this]

theorem service_path_render (id : Int) :
    "/service" ++ toString id = NodePath.render ⟨"", .service, id⟩ := by
  apply String.ext
  simp [NodePath.render, NodeKind.name, String.data_append]

theorem chr_path_render (service_path : String) (id : Int) :
    service_path ++ "/characteristic" ++ toString id
      = NodePath.render ⟨service_path, .characteristic, id⟩ := by
  apply String.ext
  simp [NodePath.render, NodeKind.name, String.data_append]

theorem desc_path_render (chr_path : String) (id : Int) :
    chr_path ++ "/descriptor" ++ toString id
      = NodePath.render ⟨chr_path, .descriptor, id⟩ := by
  apply String.ext
  simp [NodePath.render, NodeKind.name, String.data_append]

theorem register_service_paths (uuid : String) (w : World) :
    (register_service uuid w).2.paths = w.paths ++ ["/service" ++ toString w.service_id] ∧
    (register_service uuid w).2.service_id = int_incr w.service_id ∧
    (register_service uuid w).2.chr_id = w.chr_id := by
  cases h1 : w.register_ok w.register_calls <;>
    simp [register_service, g_dbus_register_interface, h1]

theorem register_characteristic_paths (chr_uuid : String) (value : Option (List Byte))
    (vlen : Int) (props : List String) (desc_uuid : Option String) (desc_props : List String)
    (service_path : String) (w : World) :
    (register_characteristic chr_uuid value vlen props desc_uuid desc_props
        service_path w).2.service_id = w.service_id ∧
    (((register_characteristic chr_uuid value vlen props desc_uuid desc_props
          service_path w).2.paths
        = w.paths ++ [service_path ++ "/characteristic" ++ toString w.chr_id] ∧
      (register_characteristic chr_uuid value vlen props desc_uuid desc_props
          service_path w).2.chr_id = int_incr w.chr_id) ∨
     ((register_characteristic chr_uuid value vlen props desc_uuid desc_props
          service_path w).2.paths
        = w.paths ++ [service_path ++ "/characteristic" ++ toString w.chr_id] ++
            [service_path ++ "/characteristic" ++ toString w.chr_id ++ "/descriptor" ++
              toString (int_incr w.chr_id)] ∧
      (register_characteristic chr_uuid value vlen props desc_uuid desc_props
          service_path w).2.chr_id = int_incr (int_incr w.chr_id))) := by
  cases h1 : w.register_ok w.register_calls with
  | false => simp [register_characteristic, g_dbus_register_interface, h1]
  | true =>
    cases desc_uuid with
    | none => simp [register_characteristic, g_dbus_register_interface, h1]
    | some u =>
      cases h2 : w.register_ok (w.register_calls + 1) <;>
        simp [register_characteristic, g_dbus_register_interface,
          g_dbus_unregister_interface, h1, h2]

theorem run_registrations_described (calls : List Registration) :
    ∀ (w : World) (nodes : List NodePath),
      paths_described w.paths w.service_id w.chr_id nodes →
      w.service_id + calls.length ≤ 2147483647 →
      w.chr_id + 2 * calls.length ≤ 2147483647 →
      ∃ nodes1, paths_described (run_registrations calls w).paths
        (run_registrations calls w).service_id (run_registrations calls w).chr_id nodes1 := by
  induction calls with
  | nil => intro w nodes h _ _; exact ⟨nodes, h⟩
  | cons call t ih =>
    intro w nodes h hs hc
    simp only [List.length_cons, Nat.cast_add, Nat.cast_one] at hs hc
    cases call with
    | service uuid =>
      obtain ⟨hp, hsid, hcid⟩ := register_service_paths uuid w
      have h1 := described_push_service _ _ _ _ "" h
      rw [← service_path_render, ← int_incr_of_lt w.service_id (by omega), ← hp, ← hsid,
        ← hcid] at h1
      exact ih (register_service uuid w).2 _ h1
        (by rw [hsid, int_incr_of_lt _ (by omega)]; omega) (by rw [hcid]; omega)
    | characteristic chr_uuid value vlen props desc_uuid desc_props service_path =>
      obtain ⟨hsid, hcase⟩ := register_characteristic_paths chr_uuid value vlen props desc_uuid
        desc_props service_path w
      have h1 := described_push_other _ _ _ _ service_path .characteristic (by decide) h
      rw [← chr_path_render, ← int_incr_of_lt w.chr_id (by omega)] at h1
      rcases hcase with ⟨hp, hcid⟩ | ⟨hp, hcid⟩
      · rw [← hp, ← hcid, ← hsid] at h1
        exact ih (register_characteristic chr_uuid value vlen props desc_uuid desc_props
            service_path w).2 _ h1 (by rw [hsid]; omega)
          (by rw [hcid, int_incr_of_lt _ (by omega)]; omega)
      · have h2 := described_push_other _ _ _ _
          (service_path ++ "/characteristic" ++ toString w.chr_id) .descriptor (by decide) h1
        rw [← desc_path_render, ← int_incr_of_lt (int_incr w.chr_id)
          (by rw [int_incr_of_lt _ (by omega)]; omega), ← hp, ← hcid, ← hsid] at h2
        exact ih (register_characteristic chr_uuid value vlen props desc_uuid desc_props
            service_path w).2 _ h2 (by rw [hsid]; omega)
          (by rw [hcid, int_incr_of_lt w.chr_id (by omega),
                int_incr_of_lt (w.chr_id + 1) (by omega)]; omega)

/-- C12.  Path uniqueness: from the start of the process, over any sequence
of `register_service` and `register_characteristic` calls short enough that
no counter reaches `INT_MAX` (twice the number of calls plus one is at most
2147483647), whatever the arguments and whatever the bus answers, the paths
built are the texts `<parent>/<kind><n>` of a list of nodes in which the
numbers taken from the service counter, and those taken from the counter that
characteristics and descriptors share, strictly increase in creation order;
and no path occurs twice. -/
theorem paths_are_never_reused (calls : List Registration) (popen_out : Nat → Option String)
    (fopen_ok nomem : Bool) (register_ok : Nat → Bool)
    (hshort : 2 * calls.length + 1 ≤ 2147483647) :
    ∃ nodes : List NodePath,
      (run_registrations calls (World.start popen_out fopen_ok nomem register_ok)).paths
        = nodes.map NodePath.render ∧
      (counter_ids true nodes).Pairwise (· < ·) ∧
      (counter_ids false nodes).Pairwise (· < ·) ∧
      (run_registrations calls
        (World.start popen_out fopen_ok nomem register_ok)).paths.Nodup := by
  obtain ⟨nodes, hp, -, -, hps, hpc, hnd⟩ := run_registrations_described calls
    (World.start popen_out fopen_ok nomem register_ok) []
    ⟨rfl, by simp, by simp, by simp [counter_ids], by simp [counter_ids], by simp⟩
    (by show (1 : Int) + _ ≤ _; omega) (by show (1 : Int) + _ ≤ _; omega)
  refine ⟨nodes, hp, hps, hpc, ?_⟩
  rw [hp]
  exact List.Nodup.map (fun p q h => render_injective p q h) hnd

/-- The statement of C12 for one service, a characteristic without descriptor
and a characteristic with one, on a bus that accepts everything. -/
theorem paths_are_never_reused_witness :
    ∃ nodes : List NodePath,
      (run_registrations
        [.service WIFI_SERVICES_UUID,
         .characteristic SECURITY_UUID (some [20]) 1 chr_props none desc_props "/service1",
         .characteristic CONFIG_NOTIFY_UUID (some [20]) 1 chr_props (some CONFIG_UUID)
           desc_props "/service1"]
        (World.start (fun _ => some "OK\n") true false (fun _ => true))).paths
        = nodes.map NodePath.render ∧
      (counter_ids true nodes).Pairwise (· < ·) ∧
      (counter_ids false nodes).Pairwise (· < ·) ∧
      (run_registrations
        [.service WIFI_SERVICES_UUID,
         .characteristic SECURITY_UUID (some [20]) 1 chr_props none desc_props "/service1",
         .characteristic CONFIG_NOTIFY_UUID (some [20]) 1 chr_props (some CONFIG_UUID)
           desc_props "/service1"]
        (World.start (fun _ => some "OK\n") true false (fun _ => true))).paths.Nodup :=
  paths_are_never_reused _ _ _ _ _ (by decide)

/-! ## The forwarding worker -/

theorem g_memdup_take (buf : List Byte) (n : Nat) (h1 : 1 ≤ n) (h2 : n ≤ 67108864) :
    g_memdup (some buf) (n : Int) = some (buf.take n) := by
  have hmod : (n : Int) % 4294967296 = (n : Int) := Int.emod_eq_of_lt (by omega) (by omega)
  have hne : (n : Int) ≠ 0 := by omega
  simp [g_memdup, hmod, hne]

/-- C21.  Forwarding, in the build with `DUEROS` defined and with the worker
running alone: when the socket is connected, the stop flag is not set and
`recv` delivers a chunk of `n` bytes, `1 ≤ n ≤ 20`, one round of the loop of
`dueros_socket_recieve` leaves the designated characteristic with exactly
those bytes as value and `n` as length, appends exactly one change
notification of `Value` on that characteristic's path, and only then goes on
to the rest of the schedule; a receive result `≤ 0` ends the loop with the
characteristic and the state untouched. -/
theorem forwarding_chunk (fd : Int) (chunk : List Byte) (schedule : List (Bool × RecvResult))
    (chr : characteristic) (w : World) (hfd : 0 ≤ fd) (h1 : 1 ≤ chunk.length)
    (h20 : chunk.length ≤ DUEROS_SOCKET_RECV_LEN) :
    dueros_socket_recieve_loop fd ((true, ⟨chunk.length, chunk⟩) :: schedule) (some chr) w
      = dueros_socket_recieve_loop fd schedule
          (some { chr with value := some chunk, vlen := chunk.length })
          { w with bus_calls := w.bus_calls ++
              [.property_changed chr.path GATT_CHR_IFACE "Value"] } ∧
    (∀ (bytes : Int) (data : List Byte) (dueros_chr : Option characteristic), bytes ≤ 0 →
      dueros_socket_recieve_loop fd ((true, ⟨bytes, data⟩) :: schedule) dueros_chr w
        = .ok (dueros_chr, w)) := by
  have hfd' : ¬ fd < 0 := by omega
  constructor
  · have hpos : ¬ ((chunk.length : Int) ≤ 0) := by omega
    have h20' : chunk.length ≤ 20 := h20
    have htake : ((chunk ++ (List.replicate 20 (0 : Byte)).drop chunk.length).take 20).take
        chunk.length = chunk := by
      rw [List.take_take, Nat.min_eq_left h20', List.take_left']
      rfl
    simp only [dueros_socket_recieve_loop, socket_recieve, hfd', if_false, hpos,
      DUEROS_SOCKET_RECV_LEN, chr_write_eq, g_dbus_emit_property_changed,
      g_memdup_take _ chunk.length h1 (by omega), htake, Bool.not_true, Bool.false_eq_true]
  · intro bytes data dueros_chr hb
    simp [dueros_socket_recieve_loop, socket_recieve, hfd', hb]

/-- The statement of C21 for the scenario of the specification: a chunk of
five bytes, then the end of the schedule; and a closed channel. -/
theorem forwarding_chunk_witness :
    dueros_socket_recieve_loop 3 [(true, ⟨5, [1, 2, 3, 4, 5]⟩)] (some chr_security) World.quiet
      = .ok (some { chr_security with value := some [1, 2, 3, 4, 5], vlen := 5 },
          { World.quiet with bus_calls :=
              [.property_changed "/service1/characteristic1" "org.bluez.GattCharacteristic1"
                "Value"] }) ∧
    dueros_socket_recieve_loop 3 [(true, ⟨0, []⟩)] (some chr_security) World.quiet
      = .ok (some chr_security, World.quiet) :=
  ⟨(forwarding_chunk 3 [1, 2, 3, 4, 5] [] chr_security World.quiet (by decide) (by decide)
      (by decide)).1,
   (forwarding_chunk 3 [1, 2, 3, 4, 5] [] chr_security World.quiet (by decide) (by decide)
      (by decide)).2 0 [] (some chr_security) (by decide)⟩

/-! ## Shape of the payload -/

/-- C22 (counterexample).  `parse_value` only tests that the argument is an
array: for an array of strings it returns 0, whatever
`dbus_message_iter_get_fixed_array` leaves in `value` and `len`.
`Set("Value")` on the descriptor then overwrites the value with a copy taken
from that pointer and length, emits the change notification and completes the
Set with success, not with an error; `WriteValue` on the descriptor mutates in
the same way and replies success. -/
theorem array_of_strings_is_accepted :
    (∀ (value0 : Option (List Byte)) (len0 : Int),
      parse_value [.array [.string "a"]] value0 len0 = (0, value0, len0)) ∧
    (∀ (value0 : Option (List Byte)) (len0 : Int),
      (desc_set_value [.array [.string "a"]] 7 desc_config value0 len0 World.quiet).1
        = { desc_config with value := g_memdup value0 len0, vlen := len0 }) ∧
    (∀ (value0 : Option (List Byte)) (len0 : Int),
      (desc_set_value [.array [.string "a"]] 7 desc_config value0 len0
          World.quiet).2.bus_calls
        = [.property_changed "/service1/characteristic4/descriptor5"
             "org.bluez.GattDescriptor1" "Value", .pending_success 7]) ∧
    (∀ (value0 : Option (List Byte)) (len0 : Int),
      (desc_write_value [.array [.string "a"], .array []] desc_config value0 len0
          World.quiet).1
        = some (.method_return [])) ∧
    (∀ (value0 : Option (List Byte)) (len0 : Int),
      (desc_write_value [.array [.string "a"], .array []] desc_config value0 len0
          World.quiet).2.1
        = { desc_config with value := g_memdup value0 len0, vlen := len0 }) := by
  have hp : ∀ (value0 : Option (List Byte)) (len0 : Int),
      parse_value [.array [.string "a"]] value0 len0 = (0, value0, len0) := by
    intro value0 len0
    simp [parse_value, dbus_message_iter_get_arg_type, DBusValue.argType,
      dbus_message_iter_recurse, dbus_message_iter_get_fixed_array]
  have hp2 : ∀ (value0 : Option (List Byte)) (len0 : Int) rest,
      parse_value (.array [.string "a"] :: rest) value0 len0 = (0, value0, len0) := by
    intro value0 len0 rest
    simp [parse_value, dbus_message_iter_get_arg_type, DBusValue.argType,
      dbus_message_iter_recurse, dbus_message_iter_get_fixed_array]
  have ho : ∀ rest, parse_options (.array [.string "a"] :: rest) = (0, none) := by
    intro rest
    simp [parse_options, dbus_message_iter_get_arg_type, DBusValue.argType,
      dbus_message_iter_recurse, parse_options_loop, DBUS_TYPE_STRING, DBUS_TYPE_DICT_ENTRY]
  refine ⟨hp, ?_, ?_, ?_, ?_⟩
  · intro value0 len0
    simp [desc_set_value_eq, hp, desc_write_eq]
  · intro value0 len0
    simp [desc_set_value_eq, hp, desc_write_eq, g_dbus_emit_property_changed,
      g_dbus_pending_property_success, desc_config, World.quiet, World.start,
      GATT_DESCRIPTOR_IFACE]
  · intro value0 len0
    simp [desc_write_value, dbus_message_iter_init, hp2, ho, desc_write_eq,
      dbus_message_new_method_return, g_dbus_emit_property_changed, World.quiet, World.start]
  · intro value0 len0
    simp [desc_write_value, dbus_message_iter_init, hp2, ho, desc_write_eq]

/-- C22 (amended).  `parse_value` checks that the payload is an array and
nothing else.  For every payload that is not an array (a message without
arguments included) it returns `-EINVAL` and leaves `value` and `len` alone;
`Set("Value")` on a descriptor then completes the Set with the
`InvalidArguments` error, `WriteValue` on a descriptor and on a characteristic
returns the `InvalidArgs` error, and the node and the state are not changed.
For an array, whatever its elements, `parse_value` returns 0. -/
theorem parse_value_checks_array_only (iter : DBusMessageIter) (id : Nat)
    (desc : descriptor) (chr : characteristic) (after : List Byte)
    (value0 : Option (List Byte)) (len0 : Int) (w : World)
    (hshape : dbus_message_iter_get_arg_type iter ≠ DBUS_TYPE_ARRAY) :
    parse_value iter value0 len0 = (-22, value0, len0) ∧
    desc_set_value iter id desc value0 len0 w
      = (desc, { w with bus_calls := w.bus_calls ++
          [.pending_error id "org.bluez.Error.InvalidArguments"
            "Invalid arguments in method call"] }) ∧
    desc_write_value iter desc value0 len0 w
      = (some (.error "org.freedesktop.DBus.Error.InvalidArgs" "Invalid arguments"), desc, w) ∧
    chr_write_value iter after chr value0 len0 w
      = .ok (some (.error "org.freedesktop.DBus.Error.InvalidArgs" "Invalid arguments"),
          chr, w) ∧
    (∀ (items rest : List DBusValue),
      (parse_value (.array items :: rest) value0 len0).1 = 0) := by
  have hp : parse_value iter value0 len0 = (-22, value0, len0) := by
    simp [parse_value, hshape, EINVAL]
  refine ⟨hp, ?_, ?_, ?_, ?_⟩
  · simp [desc_set_value_eq, hp, g_dbus_pending_property_error, ERROR_INTERFACE]
  · simp [desc_write_value, dbus_message_iter_init, hp, g_dbus_create_error,
      DBUS_ERROR_INVALID_ARGS]
  · simp [chr_write_value, dbus_message_iter_init, hp, g_dbus_create_error,
      DBUS_ERROR_INVALID_ARGS]
  · intro items rest
    simp [parse_value, dbus_message_iter_get_arg_type, DBusValue.argType]

/-- The statement of C22 (amended) for a payload that is the string `x`. -/
theorem parse_value_checks_array_only_witness :
    parse_value [.string "x"] none 0 = (-22, none, 0) ∧
    desc_set_value [.string "x"] 7 desc_config none 0 World.quiet
      = (desc_config, { World.quiet with bus_calls :=
          [.pending_error 7 "org.bluez.Error.InvalidArguments"
            "Invalid arguments in method call"] }) ∧
    desc_write_value [.string "x"] desc_config none 0 World.quiet
      = (some (.error "org.freedesktop.DBus.Error.InvalidArgs" "Invalid arguments"),
          desc_config, World.quiet) ∧
    chr_write_value [.string "x"] [0] chr_ssid none 0 World.quiet
      = .ok (some (.error "org.freedesktop.DBus.Error.InvalidArgs" "Invalid arguments"),
          chr_ssid, World.quiet) :=
  have h := parse_value_checks_array_only [.string "x"] 7 desc_config chr_ssid [0] none 0
    World.quiet (by decide)
  ⟨h.1, h.2.1, h.2.2.1, h.2.2.2.1⟩

/-! ## Provisioning steps -/

theorem sprintf_fits (size : Nat) (s : String) (h : s.length < size) :
    sprintf size s = .ok s := by
  have hfit : ¬ size ≤ s.length := by omega
  simp [sprintf, hfit]

theorem wpa_cli_config_wifi_steps (w : World)
    (hpopen : ∀ k, ∃ out, w.popen_out k = some out ∧ out.length < 256)
    (hfit : ∀ c ∈ wpa_cli_steps (atoi (w.printed 0)) w.wifi_ssid w.wifi_password,
      c.length < 256) :
    ∃ b n, wpa_cli_config_wifi w = .ok (b, { w with commands := w.commands ++
        (wpa_cli_steps (atoi (w.printed 0)) w.wifi_ssid w.wifi_password).take n }) ∧
      1 ≤ n ∧ n ≤ 4 ∧
      (2 ≤ n ↔ 0 ≤ atoi (w.printed 0)) ∧
      (3 ≤ n ↔ 0 ≤ atoi (w.printed 0) ∧ starts_with_OK (w.printed 1) = true) ∧
      (4 ≤ n ↔ 0 ≤ atoi (w.printed 0) ∧ starts_with_OK (w.printed 1) = true ∧
        starts_with_OK (w.printed 2) = true) ∧
      (b = true ↔ n = 4 ∧ starts_with_OK (w.printed 3) = true) := by
  have s1 := sprintf_fits 256 _ (hfit
    ("wpa_cli -iwlan0 set_network " ++ toString (atoi (w.printed 0)) ++ " ssid \\\"" ++
      w.wifi_ssid ++ "\\\"") (by simp [wpa_cli_steps]))
  have s2 := sprintf_fits 256 _ (hfit
    ("wpa_cli -iwlan0 set_network " ++ toString (atoi (w.printed 0)) ++ " psk \\\"" ++
      w.wifi_password ++ "\\\"") (by simp [wpa_cli_steps]))
  have s3 := sprintf_fits 256 _ (hfit
    ("wpa_cli -iwlan0 select_network " ++ toString (atoi (w.printed 0)))
    (by simp [wpa_cli_steps]))
  have x0 := execute_eq "wpa_cli -iwlan0 add_network" 256 w hpopen
  have x1 := execute_eq
    ("wpa_cli -iwlan0 set_network " ++ toString (atoi (w.printed 0)) ++ " ssid \\\"" ++
      w.wifi_ssid ++ "\\\"") 256
    { w with commands := w.commands ++ ["wpa_cli -iwlan0 add_network"] } hpopen
  have x2 := execute_eq
    ("wpa_cli -iwlan0 set_network " ++ toString (atoi (w.printed 0)) ++ " psk \\\"" ++
      w.wifi_password ++ "\\\"") 256
    { w with commands := w.commands ++ ["wpa_cli -iwlan0 add_network"] ++
      ["wpa_cli -iwlan0 set_network " ++ toString (atoi (w.printed 0)) ++ " ssid \\\"" ++
        w.wifi_ssid ++ "\\\""] } hpopen
  have x3 := execute_eq
    ("wpa_cli -iwlan0 select_network " ++ toString (atoi (w.printed 0))) 256
    { w with commands := w.commands ++ ["wpa_cli -iwlan0 add_network"] ++
      ["wpa_cli -iwlan0 set_network " ++ toString (atoi (w.printed 0)) ++ " ssid \\\"" ++
        w.wifi_ssid ++ "\\\""] ++
      ["wpa_cli -iwlan0 set_network " ++ toString (atoi (w.printed 0)) ++ " psk \\\"" ++
        w.wifi_password ++ "\\\""] } hpopen
  simp only [List.length_append, List.length_singleton] at x0 x1 x2 x3
  have e0 : (w.popen_out w.commands.length).getD "" = w.printed 0 := rfl
  have e1 : (w.popen_out (w.commands.length + 1)).getD "" = w.printed 1 := rfl
  have e2 : (w.popen_out (w.commands.length + 1 + 1)).getD "" = w.printed 2 := rfl
  have e3 : (w.popen_out (w.commands.length + 1 + 1 + 1)).getD "" = w.printed 3 := rfl
  rw [e0] at x0
  rw [e1] at x1
  rw [e2] at x2
  rw [e3] at x3
  unfold wpa_cli_config_wifi
  simp only [x0, bind, Except.bind, pure, Except.pure]
  by_cases hid : atoi (w.printed 0) < 0
  · refine ⟨false, 1, ?_, ?_⟩
    · simp [hid, wpa_cli_steps]
    · simp; omega
  · simp only [hid, if_false, s1, x1]
    by_cases h1 : starts_with_OK (w.printed 1) = true
    · simp only [h1, Bool.not_true, Bool.false_eq_true, if_false, s2, x2]
      by_cases h2 : starts_with_OK (w.printed 2) = true
      · simp only [h2, Bool.not_true, Bool.false_eq_true, if_false, s3, x3]
        by_cases h3 : starts_with_OK (w.printed 3) = true
        · refine ⟨true, 4, ?_, ?_⟩
          · simp [h3, wpa_cli_steps]
          · simp [h1, h2, h3]; omega
        · refine ⟨false, 4, ?_, ?_⟩
          · simp [h3, wpa_cli_steps]
          · simp [h1, h2, h3]; omega
      · refine ⟨false, 3, ?_, ?_⟩
        · simp [h2, wpa_cli_steps]
        · simp [h1, h2]; omega
    · refine ⟨false, 2, ?_, ?_⟩
      · simp [h1, wpa_cli_steps]
      · simp [h1]; omega

theorem atoi_wraps :
    atoi "2147483648\n" = -2147483648 ∧ atoi "99999999999\n" = 1215752191 ∧
    atoi "FAIL\n" = 0 ∧ atoi "-1\n" = -1 ∧ atoi " 12\n" = 12 := by
  decide

set_option maxRecDepth 100000 in
/-- With an SSID of 250 bytes in `wifi_ssid`, the second command line has 289
characters: `sprintf` writes past the end of `cmdline[256]`, and the model
stops there. -/
theorem long_command_line_overruns :
    wpa_cli_config_wifi
        { World.quiet with wifi_ssid := String.mk (List.replicate 250 (Char.ofNat 97)) }
      = .error .buffer_overrun ∧
    (wpa_cli_steps 0 (String.mk (List.replicate 250 (Char.ofNat 97))) "").map String.length
      = [27, 289, 38, 32] := by
  constructor <;> rfl

theorem body_after_ends (msg : DBusMessage) : ∃ pre, body_after msg = pre ++ [0] := by
  cases msg with
  | nil => exact ⟨[], rfl⟩
  | cons x rest =>
    cases x with
    | array items => exact ⟨_, rfl⟩
    | _ => exact ⟨[], rfl⟩

theorem strcpy_body_after (msg : DBusMessage) (v : List Byte) :
    strcpy (some v) (body_after msg) = .ok (captured_text msg v) := by
  obtain ⟨pre, hpre⟩ := body_after_ends msg
  have hall : (v ++ body_after msg).all (fun b => decide (b ≠ 0)) = false := by
    rw [hpre]
    simp
  simp only [strcpy, hall, captured_text, bytes_text]
  rfl

set_option maxRecDepth 100000 in
/-- C23 (counterexample).  When `add_network` prints `0` and every later
command prints `FAIL`, a write of `s3cr3t!` (with empty options) to the
password characteristic replies success and writes the configuration file,
but only two commands are run: the SSID assignment fails, and neither the
password assignment nor the selection of the profile is issued. -/
theorem failed_step_stops_provisioning :
    ∃ w1,
      chr_write_value [.array ((text_bytes "s3cr3t!").map DBusValue.byte), .array []]
        (body_after [.array ((text_bytes "s3cr3t!").map DBusValue.byte), .array []])
        chr_password none 0 World.failing
        = .ok (some (.method_return []), chr_password, w1) ∧
      w1.wifi_password = "s3cr3t!" ∧
      w1.commands =
        ["wpa_cli -iwlan0 add_network", "wpa_cli -iwlan0 set_network 0 ssid \\\"\\\""] ∧
      w1.conf = some
        ("ctrl_interface=/var/run/wpa_supplicant\nap_scan=1\n\nnetwork=\x7b\n" ++
          "ssid=\"\"\npsk=\"s3cr3t!\"\npriority=1\n\x7d\n") := by
  refine ⟨_, rfl, ?_, ?_, ?_⟩ <;> rfl

/-- C23 (amended).  Take a write of a non-empty byte array to the password
characteristic, whatever the options; the password captured is the text that
`strcpy` reads from the start of the payload to the first NUL in the message
body.  In a state where `popen` yields a stream for every command, every
command prints fewer than 256 bytes and each of the four command lines is
shorter than 256 bytes, the handler runs the first `n` of the four
provisioning commands, in order, with `1 ≤ n ≤ 4`: `add_network` always; the
SSID assignment exactly when the number `atoi` reads from the output of
`add_network` is not negative (an output that is no number, such as `FAIL`,
reads as 0 and does not stop the sequence); the password assignment exactly
when moreover the SSID assignment printed a text that starts with `OK`; the
selection exactly when moreover the password assignment printed a text that
starts with `OK`.  In every case the handler then calls `save_wifi_config`
and returns the reply it returns when all steps succeed. -/
theorem provisioning_stops_at_first_failure (v : List Byte) (rest : List DBusValue)
    (c : characteristic) (value0 : Option (List Byte)) (len0 : Int) (w : World)
    (huuid : c.uuid = PASSWORD_UUID) (hv : v ≠ [])
    (hpopen : ∀ k, ∃ out, w.popen_out k = some out ∧ out.length < 256)
    (hfit : ∀ cmd ∈ wpa_cli_steps (atoi (w.printed 0)) w.wifi_ssid
        (captured_text (.array (v.map DBusValue.byte) :: rest) v),
      cmd.length < 256) :
    ∃ w1 n,
      chr_write_value (.array (v.map DBusValue.byte) :: rest)
          (body_after (.array (v.map DBusValue.byte) :: rest)) c value0 len0 w
        = .ok (dbus_message_new_method_return w, c, w1) ∧
      w1.wifi_password = captured_text (.array (v.map DBusValue.byte) :: rest) v ∧
      w1.commands = w.commands ++
        (wpa_cli_steps (atoi (w.printed 0)) w.wifi_ssid
          (captured_text (.array (v.map DBusValue.byte) :: rest) v)).take n ∧
      1 ≤ n ∧ n ≤ 4 ∧
      (2 ≤ n ↔ 0 ≤ atoi (w.printed 0)) ∧
      (3 ≤ n ↔ 0 ≤ atoi (w.printed 0) ∧ starts_with_OK (w.printed 1) = true) ∧
      (4 ≤ n ↔ 0 ≤ atoi (w.printed 0) ∧ starts_with_OK (w.printed 1) = true ∧
        starts_with_OK (w.printed 2) = true) ∧
      w1.conf = (save_wifi_config w.wifi_ssid
        (captured_text (.array (v.map DBusValue.byte) :: rest) v) w).2.conf := by
  have hne : SSID_UUID ≠ PASSWORD_UUID := by decide
  generalize hs : captured_text (.array (v.map DBusValue.byte) :: rest) v = s at hfit ⊢
  have hcopy := strcpy_body_after (.array (v.map DBusValue.byte) :: rest) v
  rw [hs] at hcopy
  obtain ⟨b, n, hcli, hn1, hn4, h2, h3, h4, _⟩ :=
    wpa_cli_config_wifi_steps { w with wifi_password := s } hpopen hfit
  have hcli' : wpa_cli_config_wifi { w with wifi_password := s }
      = .ok (b, { w with wifi_password := s, commands := w.commands ++
          (wpa_cli_steps (atoi (w.printed 0)) w.wifi_ssid s).take n }) := hcli
  refine ⟨(save_wifi_config w.wifi_ssid s
      { w with wifi_password := s, commands := w.commands ++
        (wpa_cli_steps (atoi (w.printed 0)) w.wifi_ssid s).take n }).2,
    n, ?_, ?_, ?_, hn1, hn4, h2, h3, h4, ?_⟩
  · simp [chr_write_value, dbus_message_iter_init, parse_value_bytes, parse_options_bytes, hv,
      huuid, hcopy, hne, bind, Except.bind, pure, Except.pure, hcli',
      dbus_message_new_method_return, save_wifi_config]
    split <;> rfl
  · simp only [save_wifi_config]
    split <;> rfl
  · simp only [save_wifi_config]
    split <;> rfl
  · simp only [save_wifi_config]
    split <;> rfl

set_option maxRecDepth 100000 in
/-- The statement of C23 (amended) in two environments: where `add_network`
prints `0` and the later commands print `FAIL`, the write replies success
after the first two commands; where `add_network` prints `FAIL` and the later
commands print `OK`, all four commands are run, for the network 0. -/
theorem provisioning_stops_at_first_failure_witness :
    (∃ w1,
      chr_write_value (.array ((text_bytes "s3cr3t!").map DBusValue.byte) :: [.array []])
        (body_after (.array ((text_bytes "s3cr3t!").map DBusValue.byte) :: [.array []]))
        chr_password none 0 World.failing
        = .ok (some (.method_return []), chr_password, w1) ∧
      w1.commands = List.take 2 (wpa_cli_steps 0 "" "s3cr3t!")) ∧
    (∃ w1,
      chr_write_value (.array ((text_bytes "s3cr3t!").map DBusValue.byte) :: [.array []])
        (body_after (.array ((text_bytes "s3cr3t!").map DBusValue.byte) :: [.array []]))
        chr_password none 0
        (World.start (fun k => if k = 0 then some "FAIL\n" else some "OK\n") true false
          (fun _ => true))
        = .ok (some (.method_return []), chr_password, w1) ∧
      w1.commands = wpa_cli_steps 0 "" "s3cr3t!") := by
  constructor
  · obtain ⟨w1, n, hw, _, hc, _, _, h2, h3, _, _⟩ :=
      provisioning_stops_at_first_failure (text_bytes "s3cr3t!") [.array []] chr_password
        none 0 World.failing rfl (by decide)
        (fun k => by by_cases hk : k = 0 <;> simp [World.failing, World.start, hk] <;> decide)
        (by decide)
    have hn : n = 2 := by
      have a2 : 2 ≤ n := h2.2 (by decide)
      have a3 : ¬ 3 ≤ n := fun h => absurd (h3.1 h).2 (by decide)
      omega
    subst hn
    exact ⟨w1, hw, hc⟩
  · obtain ⟨w1, n, hw, _, hc, _, hn4, _, _, h4, _⟩ :=
      provisioning_stops_at_first_failure (text_bytes "s3cr3t!") [.array []] chr_password
        none 0
        (World.start (fun k => if k = 0 then some "FAIL\n" else some "OK\n") true false
          (fun _ => true))
        rfl (by decide)
        (fun k => by by_cases hk : k = 0 <;> simp [World.start, hk] <;> decide)
        (by decide)
    have hn : n = 4 := by
      have a4 : 4 ≤ n := h4.2 (by decide)
      omega
    subst hn
    exact ⟨w1, hw, hc⟩

/-! ## Order of the effects of a Set -/

theorem desc_set_value_stmts_bytes (v : List Byte) (rest : List DBusValue) (id : Nat)
    (value0 : Option (List Byte)) (len0 : Int) :
    desc_set_value_stmts (.array (v.map DBusValue.byte) :: rest) id value0 len0
      = desc_write_stmts (if v = [] then none else some v) (v.length : Int) ++
          [fun s => (s.1, g_dbus_pending_property_success id s.2)] := by
  simp [desc_set_value_stmts, parse_value_bytes]

/-- C24.  For every descriptor and every byte array `v` (of at most 64 MiB,
the largest array a message can carry), `desc_set_value` goes through four
states, in this order: the value field overwritten with `v`; the length field
set; the change notification of `Value` on the descriptor's path appended to
the bus trace, the descriptor already holding `v`; the pending Set completed
with success, after the notification.  The result of `desc_set_value` is the
last of these states: the Set is completed once, and `Get("Value")` on the
result returns `v`. -/
theorem desc_set_value_order (desc : descriptor) (w : World) (id : Nat) (v : List Byte)
    (rest : List DBusValue) (value0 : Option (List Byte)) (len0 : Int)
    (hlen : v.length ≤ 67108864) :
    run_states (desc_set_value_stmts (.array (v.map DBusValue.byte) :: rest) id value0 len0)
        (desc, w)
      = [({ desc with value := if v = [] then none else some v }, w),
         ({ desc with value := if v = [] then none else some v, vlen := (v.length : Int) }, w),
         ({ desc with value := if v = [] then none else some v, vlen := (v.length : Int) },
          { w with bus_calls := w.bus_calls ++
            [.property_changed desc.path GATT_DESCRIPTOR_IFACE "Value"] }),
         ({ desc with value := if v = [] then none else some v, vlen := (v.length : Int) },
          { w with bus_calls := w.bus_calls ++
            [.property_changed desc.path GATT_DESCRIPTOR_IFACE "Value",
             .pending_success id] })] ∧
    (run_states (desc_set_value_stmts (.array (v.map DBusValue.byte) :: rest) id value0 len0)
        (desc, w)).getLast?
      = some (desc_set_value (.array (v.map DBusValue.byte) :: rest) id desc value0 len0 w) ∧
    desc_set_value (.array (v.map DBusValue.byte) :: rest) id desc value0 len0 w
      = ({ desc with value := if v = [] then none else some v, vlen := (v.length : Int) },
         { w with bus_calls := w.bus_calls ++
            [.property_changed desc.path GATT_DESCRIPTOR_IFACE "Value", .pending_success id] }) ∧
    desc_set_value (.array (v.map DBusValue.byte) :: rest) id desc value0 len0 w
      = ((desc_write desc (if v = [] then none else some v) (v.length : Int) w).1,
         g_dbus_pending_property_success id
           (desc_write desc (if v = [] then none else some v) (v.length : Int) w).2) ∧
    desc_get_value
        (desc_set_value (.array (v.map DBusValue.byte) :: rest) id desc value0 len0 w).1
      = .array (v.map DBusValue.byte) := by
  have h1 : desc_set_value (.array (v.map DBusValue.byte) :: rest) id desc value0 len0 w
      = ({ desc with value := if v = [] then none else some v, vlen := (v.length : Int) },
         { w with bus_calls := w.bus_calls ++
            [.property_changed desc.path GATT_DESCRIPTOR_IFACE "Value", .pending_success id] }) := by
    simp [desc_set_value_eq, parse_value_bytes, desc_write_eq, g_memdup_whole v hlen,
      g_dbus_emit_property_changed, g_dbus_pending_property_success]
  have hs : run_states
      (desc_set_value_stmts (.array (v.map DBusValue.byte) :: rest) id value0 len0) (desc, w)
      = [({ desc with value := if v = [] then none else some v }, w),
         ({ desc with value := if v = [] then none else some v, vlen := (v.length : Int) }, w),
         ({ desc with value := if v = [] then none else some v, vlen := (v.length : Int) },
          { w with bus_calls := w.bus_calls ++
            [.property_changed desc.path GATT_DESCRIPTOR_IFACE "Value"] }),
         ({ desc with value := if v = [] then none else some v, vlen := (v.length : Int) },
          { w with bus_calls := w.bus_calls ++
            [.property_changed desc.path GATT_DESCRIPTOR_IFACE "Value",
             .pending_success id] })] := by
    rw [desc_set_value_stmts_bytes]
    simp [desc_write_stmts, run_states, g_memdup_whole v hlen, g_dbus_emit_property_changed,
      g_dbus_pending_property_success]
  refine ⟨hs, ?_, h1, ?_, ?_⟩
  · rw [hs, h1]
    rfl
  · simp [desc_set_value_eq, parse_value_bytes]
  · rw [h1]
    by_cases hv : v = []
    · subst hv
      simp [desc_get_value, desc_read]
    · have hpos : 0 < v.length := List.length_pos.mpr hv
      have hz : (v.length : Int) ≠ 0 := by omega
      simp [desc_get_value, desc_read, hv, hz, append_byte_array]

/-- The statement of C24 for the configuration descriptor, the pending Set 7
and the two bytes `01 02`: the four states. -/
theorem desc_set_value_order_witness :
    run_states (desc_set_value_stmts [.array [.byte 1, .byte 2]] 7 none 0)
        (desc_config, World.quiet)
      = [({ desc_config with value := some [1, 2] }, World.quiet),
         ({ desc_config with value := some [1, 2], vlen := 2 }, World.quiet),
         ({ desc_config with value := some [1, 2], vlen := 2 },
          { World.quiet with bus_calls :=
            [.property_changed "/service1/characteristic4/descriptor5"
               "org.bluez.GattDescriptor1" "Value"] }),
         ({ desc_config with value := some [1, 2], vlen := 2 },
          { World.quiet with bus_calls :=
            [.property_changed "/service1/characteristic4/descriptor5"
               "org.bluez.GattDescriptor1" "Value", .pending_success 7] })] :=
  (desc_set_value_order desc_config World.quiet 7 [1, 2] [] none 0 (by decide)).1

/-! ## Size of the captured fields -/

set_option maxRecDepth 100000 in
/-- C25 (code defect).  The copy into `wifi_ssid` is a `strcpy` with no bound:
a WriteValue of 300 bytes `a`, followed by a NUL in the message buffer, to the
SSID characteristic replies success and the text copied into the buffer of
256 bytes is 300 characters long (plus its terminator). -/
theorem strcpy_overruns_the_buffer :
    ∃ w1,
      chr_write_value [.array ((List.replicate 300 (97 : Byte)).map DBusValue.byte), .array []]
        [0] chr_ssid none 0 World.quiet = .ok (some (.method_return []), chr_ssid, w1) ∧
      w1.wifi_ssid = String.mk (List.replicate 300 (Char.ofNat 97)) ∧
      w1.wifi_ssid.data.length = 300 := by
  refine ⟨_, rfl, ?_, ?_⟩ <;> rfl

/-! ## The options of WriteValue -/

end GattService

namespace Bluetoothd

/-! ## The minimum encryption key size -/

theorem parse_did_min_enc_key_size (libc : LibC) (did : String) (vendor0 product0 : Nat)
    (main_opts : main_opts_t) :
    (parse_did libc did vendor0 product0 main_opts).min_enc_key_size
      = main_opts.min_enc_key_size := by
  unfold parse_did
  simp only
  split <;> [rfl; (split <;> [rfl; (split <;> rfl)])]

theorem parse_config_min_enc_key_size (libc : LibC) (config : GKeyFile)
    (vendor0 product0 : Nat) (main_opts : main_opts_t) (mps : mps_t) :
    (parse_config libc (some config) vendor0 product0 main_opts mps).1.min_enc_key_size
      = match config.g_key_file_get_integer "GATT" "MinEncKeySize" with
        | none => main_opts.min_enc_key_size
        | some val =>
          if 7 ≤ val ∧ val ≤ 16 then val.toNat else main_opts.min_enc_key_size := by
  unfold parse_config
  split
  · rename_i h; exact absurd h (by simp)
  · rename_i cfg h
    cases h
    lift_lets
    extract_lets m1 m2 m3 m4 m5 m6 m7 m8 m9 m10 mp m11 m12 m13
    have h1 : m1.min_enc_key_size = main_opts.min_enc_key_size := by
      simp only [m1]; split <;> rfl
    have h2 : m2.min_enc_key_size = main_opts.min_enc_key_size := by
      rw [← h1]; simp only [m2]; split <;> rfl
    have h3 : m3.min_enc_key_size = main_opts.min_enc_key_size := by
      rw [← h2]; simp only [m3]; split <;> [rfl; (split <;> [rfl; (split <;> rfl)])]
    have h4 : m4.min_enc_key_size = main_opts.min_enc_key_size := by
      rw [← h3]; simp only [m4]; split <;> rfl
    have h5 : m5.min_enc_key_size = main_opts.min_enc_key_size := by
      rw [← h4]; simp only [m5]; split <;> rfl
    have h6 : m6.min_enc_key_size = main_opts.min_enc_key_size := by
      rw [← h5]; simp only [m6]; split <;> [rfl; exact parse_did_min_enc_key_size _ _ _ _ _]
    have h7 : m7.min_enc_key_size = main_opts.min_enc_key_size := by
      rw [← h6]; simp only [m7]; split <;> rfl
    have h8 : m8.min_enc_key_size = main_opts.min_enc_key_size := by
      rw [← h7]; simp only [m8]; split <;> rfl
    have h9 : m9.min_enc_key_size = main_opts.min_enc_key_size := by
      rw [← h8]; simp only [m9]; split <;> rfl
    have h10 : m10.min_enc_key_size = main_opts.min_enc_key_size := by
      rw [← h9]; simp only [m10]; split <;> rfl
    have h11 : m11.min_enc_key_size = main_opts.min_enc_key_size := by
      rw [← h10]; simp only [m11]; split <;> rfl
    have h12 : m12.min_enc_key_size = main_opts.min_enc_key_size := by
      rw [← h11]; simp only [m12]; split <;> rfl
    simp only [m13]
    cases hk : config.g_key_file_get_integer "GATT" "MinEncKeySize" with
    | none => simpa using h12
    | some val =>
      simp only
      by_cases hr : val ≥ 7 ∧ val ≤ 16
      · have hmod : (val % 256).toNat = val.toNat := by
          have : val % 256 = val := Int.emod_eq_of_lt (by omega) (by omega)
          rw [this]
        have hr' : 7 ≤ val ∧ val ≤ 16 := hr
        simp [hr, hmod]
      · have hr' : ¬ (7 ≤ val ∧ val ≤ 16) := hr
        simp only [hr, hr', if_false]
        exact h12

/-- C27.  `parse_config` range-checks the minimum encryption key size: when
the key file yields an integer `val` for `MinEncKeySize` in the group `GATT`,
`main_opts.min_enc_key_size` afterwards is `val` if `7 ≤ val ≤ 16` and is
what it was before for every other integer; it is also what it was before
when the key is missing or unreadable, and when there is no key file.
Whatever the other keys of the file hold. -/
theorem min_enc_key_size_range_checked (libc : LibC) (config : GKeyFile)
    (vendor0 product0 : Nat) (main_opts : main_opts_t) (mps : mps_t) :
    (∀ val : Int, config.g_key_file_get_integer "GATT" "MinEncKeySize" = some val →
      (7 ≤ val ∧ val ≤ 16 →
        ((parse_config libc (some config) vendor0 product0 main_opts mps).1.min_enc_key_size
          : Int) = val) ∧
      (¬ (7 ≤ val ∧ val ≤ 16) →
        (parse_config libc (some config) vendor0 product0 main_opts mps).1.min_enc_key_size
          = main_opts.min_enc_key_size)) ∧
    (config.g_key_file_get_integer "GATT" "MinEncKeySize" = none →
      (parse_config libc (some config) vendor0 product0 main_opts mps).1.min_enc_key_size
        = main_opts.min_enc_key_size) ∧
    (parse_config libc none vendor0 product0 main_opts mps).1 = main_opts ∧
    (parse_config libc_blank (some (key_file_with_key_size 7)) 0 0 (main_opts_with 1)
        .MPS_OFF).1.min_enc_key_size = 7 ∧
    (parse_config libc_blank (some (key_file_with_key_size 16)) 0 0 (main_opts_with 1)
        .MPS_OFF).1.min_enc_key_size = 16 ∧
    (parse_config libc_blank (some (key_file_with_key_size 6)) 0 0 (main_opts_with 1)
        .MPS_OFF).1.min_enc_key_size = 1 ∧
    (parse_config libc_blank (some (key_file_with_key_size 17)) 0 0 (main_opts_with 1)
        .MPS_OFF).1.min_enc_key_size = 1 := by
  have h := parse_config_min_enc_key_size libc config vendor0 product0 main_opts mps
  refine ⟨?_, ?_, rfl, ?_, ?_, ?_, ?_⟩
  · intro val hval
    rw [hval] at h
    simp only at h
    constructor
    · intro hr
      rw [h, if_pos hr]
      exact Int.toNat_of_nonneg (by omega)
    · intro hr
      rw [h, if_neg hr]
  · intro hnone
    rw [hnone] at h
    exact h
  · rw [parse_config_min_enc_key_size]; decide
  · rw [parse_config_min_enc_key_size]; decide
  · rw [parse_config_min_enc_key_size]; decide
  · rw [parse_config_min_enc_key_size]; decide

end Bluetoothd
